import Mathlib

/-!
Verification of the growth-rate / normalization / merge / correlation core of
`BetweenCountry.py` (Olympic-effect analysis).

The pandas data model is embedded shallowly:

* A `DataFrame` is a column-name list together with labelled rows.  Each row is
  a pandas index label (an integer, as produced by `reset_index`) paired with a
  positional list of cells.  A cell is `Option ℚ`; `none` plays the role of
  pandas `NaN` / a missing value.  Floating-point values are idealized as `ℚ`.
* `.loc[i, col]` is label-based lookup (`locCell`), `.iloc` is positional.
* `reset_index` inserts the current labels as a leading column named `index`
  (or `level_0` when an `index` column already exists, as pandas does) and
  renumbers labels `0..n-1`; it errors when the insertion name collides.
* `sort_values` permutes rows (labels travel with their rows, they are *not*
  reset, exactly as in pandas); `NaN` sorts last.  pandas' default quicksort is
  unstable, so nothing below depends on tie order.
* Assigning a plain Python list to a column is positional and fails with a
  length-mismatch error when the list length differs from the row count.
* Operations that raise in Python (`KeyError`, `IndexError`, `ValueError`)
  return `Except.error`.
-/

deriving instance DecidableEq for Except

/-- A pandas DataFrame: ordered column names plus rows of
(index label, positional cells).  A cell of `none` is `NaN`. -/
structure DataFrame where
  cols : List String
  rows : List (Nat × List (Option ℚ))
deriving DecidableEq

/-- Index of the first column with a given name (pandas label resolution). -/
def colIdx (cols : List String) (c : String) : Option Nat :=
  match cols with
  | [] => none
  | d :: ds => if d = c then some 0 else (colIdx ds c).map (fun i => i + 1)

/-- Positional cell lookup by column name (first matching column, as pandas
resolves a unique label).  Returns `none` both for an absent column and a
`NaN` cell; callers that must distinguish check membership in `cols` first. -/
def cellVal (cols : List String) (cells : List (Option ℚ)) (c : String) : Option ℚ :=
  ((colIdx cols c).bind (fun i => cells[i]?)).getD none

/-- `∀ rows, row length = column count` — every well-formed pandas frame
satisfies this; operations below preserve it. -/
def Aligned (df : DataFrame) : Prop :=
  ∀ r ∈ df.rows, r.2.length = df.cols.length

instance : DecidablePred Aligned := fun df =>
  inferInstanceAs (Decidable (∀ r ∈ df.rows, r.2.length = df.cols.length))

/-- `df[c]` as a list of values (KeyError when the column is absent). -/
def getColVals (df : DataFrame) (c : String) : Except String (List (Option ℚ)) :=
  if c ∈ df.cols then Except.ok (df.rows.map (fun r => cellVal df.cols r.2 c))
  else Except.error "KeyError"

/-- `df.loc[lab, col]`: label-based scalar access, KeyError on a missing label
or column. -/
def locCell (df : DataFrame) (lab : Nat) (col : String) : Except String (Option ℚ) :=
  match df.rows.find? (fun r => r.1 == lab) with
  | none => Except.error "KeyError: label"
  | some r =>
    match colIdx df.cols col with
    | none => Except.error "KeyError: column"
    | some i => Except.ok ((r.2[i]?).getD none)

/-- `df[col] = vals` for a plain list `vals`: positional assignment, replacing
an existing column or appending a new one; raises (ValueError) when the list
length differs from the row count. -/
def setColumn (df : DataFrame) (col : String) (vals : List (Option ℚ)) :
    Except String DataFrame :=
  if vals.length = df.rows.length then
    match colIdx df.cols col with
    | some i =>
        Except.ok ⟨df.cols, (df.rows.zip vals).map (fun rv => (rv.1.1, rv.1.2.set i rv.2))⟩
    | none =>
        Except.ok ⟨df.cols ++ [col], (df.rows.zip vals).map (fun rv => (rv.1.1, rv.1.2 ++ [rv.2]))⟩
  else Except.error "Length of values does not match length of index"

/-- `df.reset_index(inplace=True)`: inserts the current integer labels as a
leading column (named `index`, or `level_0` when `index` is taken, as pandas'
default naming does) and renumbers the labels `0..n-1`.  Errors when the
chosen name also exists ("cannot insert, already exists"). -/
def reset_index (df : DataFrame) : Except String DataFrame :=
  let name := if "index" ∈ df.cols then "level_0" else "index"
  if name ∈ df.cols then Except.error "cannot insert column, already exists"
  else Except.ok ⟨name :: df.cols,
    df.rows.enum.map (fun ir => (ir.1, some ((ir.2.1 : ℚ)) :: ir.2.2))⟩

/-- ASCII whitespace, the class Python's `str.strip()` removes from the
column headers occurring in this dataset. -/
def isSpaceChar (c : Char) : Bool :=
  c = ' ' || c = '\t' || c = '\n' || c = '\r'

/-- Python `str.strip()`: drop leading and trailing whitespace. -/
def pyStrip (s : String) : String :=
  ⟨((s.data.dropWhile isSpaceChar).reverse.dropWhile isSpaceChar).reverse⟩

/-- Python `str.upper()` on the ASCII country tags used here. -/
def pyUpper (s : String) : String :=
  ⟨s.data.map (fun c => if 'a' ≤ c && c ≤ 'z' then Char.ofNat (c.toNat - 32) else c)⟩

/-- `df.columns = df.columns.str.strip()`. -/
def stripCols (df : DataFrame) : DataFrame :=
  ⟨df.cols.map (fun c => pyStrip c), df.rows⟩

/-- `df.rename(columns=rd)`: every column name found in the mapping is
replaced, others are untouched. -/
def renameCols (df : DataFrame) (rd : List (String × String)) : DataFrame :=
  ⟨df.cols.map (fun c => (((rd.find? (fun p => p.1 == c)).map (fun p => p.2)).getD c)),
   df.rows⟩

/-- Python comparison `a > b` on two possibly-NaN values: any comparison with
`NaN` is `False`. -/
def optGtB : Option ℚ → Option ℚ → Bool
  | some a, some b => decide (b < a)
  | _, _ => false

/-- Ascending order on possibly-NaN sort keys; `NaN` sorts last
(pandas `na_position="last"`). -/
def yearLeB : Option ℚ → Option ℚ → Bool
  | some a, some b => decide (a ≤ b)
  | some _, none => true
  | none, some _ => false
  | none, none => true

/-- Row comparison used by `sort_values(by="Year")`. -/
def rowLeByYear (cols : List String) (r s : Nat × List (Option ℚ)) : Prop :=
  yearLeB (cellVal cols r.2 "Year") (cellVal cols s.2 "Year") = true

instance (cols : List String) : DecidableRel (rowLeByYear cols) := fun r s => by
  unfold rowLeByYear; infer_instance

/-- `df.sort_values(by="Year", inplace=True)`: reorders rows ascending by the
Year cell; labels travel with their rows (no index reset — this is the point
at which the pandas index becomes a permutation). -/
def sortByYear (df : DataFrame) : DataFrame :=
  ⟨df.cols, List.insertionSort (rowLeByYear df.cols) df.rows⟩

/-- One appended growth value: `0` when the previous value compares equal to
`0`, otherwise `(cur - prev)/prev * 100` with NaN propagation (in Python,
`NaN == 0` is `False` and arithmetic on `NaN` yields `NaN`). -/
def growthStep (prev cur : Option ℚ) : Option ℚ :=
  match prev with
  | some p => if p = 0 then some 0 else cur.map (fun c => (c - p) / p * 100)
  | none => none

/-- The loop `for i in range(1, len(df))` of `calculate_growth_rate`, with
`js` the list of `i - 1` values: each step reads `df.loc[i-1, metric]` and
`df.loc[i, metric]` (label-based!). -/
def growthAux (df : DataFrame) (metric : String) : List Nat → Except String (List (Option ℚ))
  | [] => Except.ok []
  | j :: js => do
      let prev ← locCell df j metric
      let cur ← locCell df (j + 1) metric
      let rest ← growthAux df metric js
      Except.ok (growthStep prev cur :: rest)

/-- The `growth_rates` list built by `calculate_growth_rate`: a leading `0`
followed by one entry per loop iteration. -/
def growthRates (df : DataFrame) (metric : String) : Except String (List (Option ℚ)) := do
  let rest ← growthAux df metric (List.range (df.rows.length - 1))
  Except.ok (some 0 :: rest)

/-- `calculate_growth_rate(df, metric_column)`: builds the growth list and
assigns it as the `Growth Rate (%)` column (which raises on an empty frame,
where the list `[0]` has length 1 but the index has length 0). -/
def calculate_growth_rate (df : DataFrame) (metric : String) : Except String DataFrame := do
  let g ← growthRates df metric
  setColumn df "Growth Rate (%)" g

/-- `series.iloc[0]` (IndexError on an empty column). -/
def headE (l : List (Option ℚ)) : Except String (Option ℚ) :=
  match l.head? with
  | some v => Except.ok v
  | none => Except.error "IndexError"

/-- `series.iloc[-1]` (IndexError on an empty column). -/
def lastE (l : List (Option ℚ)) : Except String (Option ℚ) :=
  match l.getLast? with
  | some v => Except.ok v
  | none => Except.error "IndexError"

/-- `index_rename_and_calculate_growth_rate(df, rename_dict, host_year,
metric_column)`: reset_index, strip column names, optional rename, sort
ascending when the Year column is descending (first entry > last entry),
growth-rate computation, then `Relative Year = Year - host_year`.
`rd = []` models `rename_dict=None` (and an empty dict is equally falsy in
the Python `if rename_dict:` test). -/
def index_rename_and_calculate_growth_rate (df : DataFrame) (rd : List (String × String))
    (host : ℚ) (metric : String) : Except String DataFrame :=
  (reset_index df).bind (fun df1 =>
    let df2 := stripCols df1
    let df3 := if rd.isEmpty then df2 else renameCols df2 rd
    (getColVals df3 "Year").bind (fun yearVals =>
      (headE yearVals).bind (fun v0 =>
        (lastE yearVals).bind (fun vl =>
          let df4 := if optGtB v0 vl then sortByYear df3 else df3
          (calculate_growth_rate df4 metric).bind (fun df5 =>
            (getColVals df5 "Year").bind (fun yv =>
              setColumn df5 "Relative Year"
                (yv.map (fun o => o.map (fun y => y - host)))))))))

/-! ## DataMerger (`load_and_merge_data`) -/

/-- `pd.DataFrame().empty`-style test: any axis of length 0. -/
def DataFrame.isEmptyDF (df : DataFrame) : Bool :=
  df.rows.isEmpty || df.cols.isEmpty

/-- `df[[c₁, …]]`: column selection in the given order (KeyError when one is
absent). -/
def selectCols (df : DataFrame) (cs : List String) : Except String DataFrame :=
  if cs.all (fun c => df.cols.contains c) then
    Except.ok ⟨cs, df.rows.map (fun r => (r.1, cs.map (fun c => cellVal df.cols r.2 c)))⟩
  else Except.error "KeyError: columns"

/-- Equality test between a left-row key and a right-row key in a merge:
`NaN` never matches. -/
def keyMatchB : Option ℚ → Option ℚ → Bool
  | some a, some b => a == b
  | _, _ => false

/-- The non-key cells of a right row, in right-column order. -/
def dropKeyCells (rcols : List String) (key : String) (cells : List (Option ℚ)) :
    List (Option ℚ) :=
  ((rcols.zip cells).filter (fun p => p.1 != key)).map (fun p => p.2)

/-- `l.merge(r, on=key, how="left")`: every left row is kept; it is joined with
each matching right row, or padded with `NaN` in the right-hand columns when no
right row matches.  The result gets a fresh `0..n-1` index.  (The frames merged
in this program share no non-key column, so pandas' `_x`/`_y` suffixing never
fires and is not modelled.) -/
def mergeLeft (l r : DataFrame) (key : String) : DataFrame :=
  let rcols := r.cols.filter (fun c => c != key)
  let cellsList := l.rows.flatMap (fun lr =>
    let k := cellVal l.cols lr.2 key
    let ms := r.rows.filter (fun rr => keyMatchB k (cellVal r.cols rr.2 key))
    if ms.isEmpty then
      [lr.2 ++ rcols.map (fun _ => (none : Option ℚ))]
    else
      ms.map (fun rr => lr.2 ++ dropKeyCells r.cols key rr.2))
  ⟨l.cols ++ rcols, cellsList.enum⟩

/-- One country's slice inside the `load_and_merge_data` loop:
`t[["Relative Year", m]].rename(columns={m: f"{m}_{co}"})`. -/
def prepCountry (t : DataFrame) (m co : String) : Except String DataFrame := do
  let s ← selectCols t ["Relative Year", m]
  Except.ok (renameCols s [(m, m ++ "_" ++ co)])

/-- One iteration of the `load_and_merge_data` loop body. -/
def mergeStep (acc : DataFrame) (e : String × DataFrame × DataFrame) :
    Except String DataFrame := do
  let aus ← prepCountry e.2.1 e.1 "AUS"
  let chi ← prepCountry e.2.2 e.1 "CHI"
  if acc.isEmptyDF then
    Except.ok (mergeLeft aus chi "Relative Year")
  else
    Except.ok (mergeLeft (mergeLeft acc aus "Relative Year") chi "Relative Year")

/-- The `for metric_name, country_data in cleaned_data_dict.items()` loop. -/
def mergeLoop (acc : DataFrame) : List (String × DataFrame × DataFrame) →
    Except String DataFrame
  | [] => Except.ok acc
  | e :: es => do
      let acc' ← mergeStep acc e
      mergeLoop acc' es

/-- `load_and_merge_data(cleaned_data_dict)`; the dict is modelled as its
(insertion-ordered) entry list `(metric, (AUS table, CHI table))`. -/
def load_and_merge_data (d : List (String × DataFrame × DataFrame)) :
    Except String DataFrame :=
  mergeLoop ⟨[], []⟩ d

/-- The frame `t[["Relative Year", m]].rename(columns={m: f"{m}_{co}"})` that
`prepCountry` returns when the required columns exist. -/
def prepFrame (t : DataFrame) (m co : String) : DataFrame :=
  ⟨["Relative Year", m ++ "_" ++ co],
   t.rows.map (fun r => (r.1, [cellVal t.cols r.2 "Relative Year", cellVal t.cols r.2 m]))⟩

/-- The columns the merge loop appends for a list of metric entries, in loop
order: `{metric}_AUS` then `{metric}_CHI` per entry. -/
def genCols (es : List (String × DataFrame × DataFrame)) : List String :=
  es.flatMap (fun e => [e.1 ++ "_" ++ "AUS", e.1 ++ "_" ++ "CHI"])

/-- Well-formedness of one `cleaned_data_dict` entry: both country tables are
aligned and carry a `Relative Year` column and the metric column, and the
metric is not itself named `Relative Year`. -/
def EntryOK (e : String × DataFrame × DataFrame) : Prop :=
  "Relative Year" ∈ e.2.1.cols ∧ e.1 ∈ e.2.1.cols ∧
  "Relative Year" ∈ e.2.2.cols ∧ e.1 ∈ e.2.2.cols ∧
  ¬ e.1 = "Relative Year" ∧ Aligned e.2.1 ∧ Aligned e.2.2

instance : DecidablePred EntryOK := fun e => by
  unfold EntryOK
  infer_instance

/-- Membership of a value in a frame's `Relative Year` column. -/
def rvMem (df : DataFrame) (q : Option ℚ) : Prop :=
  ∃ r ∈ df.rows, cellVal df.cols r.2 "Relative Year" = q

/-- A table covers a key value when one of its `Relative Year` cells matches it
under the merge's key-equality test (`NaN` never matches). -/
def keyCovered (t : DataFrame) (k : Option ℚ) : Prop :=
  ∃ rr ∈ t.rows, keyMatchB k (cellVal t.cols rr.2 "Relative Year") = true

/-- The column `col` of `df` is `NaN` on every row whose `Relative Year` the
table `t` does not cover. -/
def MissCol (df : DataFrame) (t : DataFrame) (col : String) : Prop :=
  col ∈ df.cols ∧
  ∀ r ∈ df.rows, ¬ keyCovered t (cellVal df.cols r.2 "Relative Year") →
    cellVal df.cols r.2 col = none

/-! ## CorrelationEngine

A Pearson coefficient over pairwise-complete observations
`(x₁,y₁)…(x_n,y_n)` is `(n·Σxy − Σx·Σy) / √((n·Σx² − (Σx)²)·(n·Σy² − (Σy)²))`,
and pandas returns `NaN` when either scatter factor is zero (constant column,
fewer than two complete pairs).  Over `ℚ` the square root does not exist, so a
matrix entry is stored as the constructor `CorrEntry.val num denSq` denoting
the real number `num / √denSq`, or `CorrEntry.nan` for pandas `NaN`; the
(noncomputable) denotation is `CorrEntry.toReal`.  This keeps every pipeline
function executable while the numeric claims are stated against the real
denotation. -/

inductive CorrEntry where
  | nan : CorrEntry
  | val (num denSq : ℚ) : CorrEntry
deriving DecidableEq

/-- The real number denoted by a stored correlation entry (`none` = NaN). -/
noncomputable def CorrEntry.toReal : CorrEntry → Option ℝ
  | CorrEntry.nan => none
  | CorrEntry.val num denSq => some ((num : ℝ) / Real.sqrt ((denSq : ℚ) : ℝ))

/-- `n·Σx² − (Σx)²`: `n²` times the (biased) variance of a value list; zero
exactly when the list is constant or has fewer than two elements. -/
def scatterNum (l : List ℚ) : ℚ :=
  (l.length : ℚ) * (l.map (fun x => x * x)).sum - l.sum * l.sum

/-- The pairwise-complete observations of two columns: rows where both cells
are non-NaN, exactly the rows pandas' `corr` uses for that pair. -/
def pairedVals (df : DataFrame) (c1 c2 : String) : List (ℚ × ℚ) :=
  df.rows.filterMap (fun r =>
    match cellVal df.cols r.2 c1, cellVal df.cols r.2 c2 with
    | some a, some b => some (a, b)
    | _, _ => none)

/-- Pearson coefficient of a paired sample, as a `CorrEntry`. -/
def pearsonEntry (ps : List (ℚ × ℚ)) : CorrEntry :=
  let n : ℚ := ps.length
  let xs := ps.map (fun p => p.1)
  let ys := ps.map (fun p => p.2)
  let sxy := (ps.map (fun p => p.1 * p.2)).sum
  let vx := n * (xs.map (fun x => x * x)).sum - xs.sum * xs.sum
  let vy := n * (ys.map (fun y => y * y)).sum - ys.sum * ys.sum
  if vx = 0 ∨ vy = 0 then CorrEntry.nan
  else CorrEntry.val (n * sxy - xs.sum * ys.sum) (vx * vy)

/-- A labelled correlation matrix, as `DataFrame.corr()` returns it: one row
per metric, each row holding one labelled entry per metric. -/
abbrev CorrMatrix := List (String × List (String × CorrEntry))

/-- `df[metrics].corr()`: the full pairwise matrix over exactly the given
columns, in their given order. -/
def corrOfFrame (df : DataFrame) (metrics : List String) : CorrMatrix :=
  metrics.map (fun c1 => (c1, metrics.map (fun c2 =>
    (c2, pearsonEntry (pairedVals df c1 c2)))))

/-- `df[df["Relative Year"].between(lo, hi)]`: keeps exactly the rows whose
Relative Year is within the inclusive bounds (`between` is inclusive on both
ends by default, and `NaN` filters out). -/
def betweenFilter (df : DataFrame) (lo hi : ℚ) : DataFrame :=
  ⟨df.cols, df.rows.filter (fun r =>
    match cellVal df.cols r.2 "Relative Year" with
    | some v => decide (lo ≤ v) && decide (v ≤ hi)
    | none => false)⟩

/-- The `if time_period: df = df[...between...]` step of
`calculate_correlation` (KeyError when Relative Year is absent). -/
def applyWindow (df : DataFrame) (tp : Option (ℚ × ℚ)) : Except String DataFrame :=
  match tp with
  | some p =>
      if "Relative Year" ∈ df.cols then Except.ok (betweenFilter df p.1 p.2)
      else Except.error "KeyError: Relative Year"
  | none => Except.ok df

/-- `calculate_correlation(df, metrics, time_period)`: optional inclusive
window filter on Relative Year, then the pairwise Pearson matrix over exactly
`metrics` (column access raises KeyError when a name is absent). -/
def calculate_correlation (df : DataFrame) (metrics : List String)
    (tp : Option (ℚ × ℚ)) : Except String CorrMatrix :=
  (applyWindow df tp).bind (fun dfw =>
    if metrics.all (fun m => dfw.cols.contains m) then
      Except.ok (corrOfFrame dfw metrics)
    else Except.error "KeyError: metric column")

/-- The module-level `metric_groups` configuration dictionary. -/
def metric_groups : List (String × List String) :=
  [("Economic", ["GDP_per_capita", "FDI", "Gov_Consumption"]),
   ("Social", ["Num_Arrivals", "Obesity_rate", "Underweight_rate", "Unemployment_Rate(%)"]),
   ("Environmental", ["MtCO2e"])]

/-- The module-level `country_suffix` configuration dictionary. -/
def country_suffix : List (String × String) :=
  [("Australia", "_AUS"), ("China", "_CHI")]

/-- The list comprehension
`[f"{m}{suffix}" for m in metrics if f"{m}{suffix}" in merged_data.columns]`. -/
def resolveCols (cols : List String) (suffix : String) (ms : List String) : List String :=
  (ms.map (fun m => m ++ suffix)).filter (fun c => cols.contains c)

/-- The inner `for group, metrics in metric_groups.items()` loop of
`compute_country_correlation_matrices`: produces the per-country group-matrix
dictionary and the printed "Not enough data" skip reports. -/
def processGroups (merged : DataFrame) (country suffix : String) :
    List (String × List String) →
    Except String (List (String × CorrMatrix) × List String)
  | [] => Except.ok ([], [])
  | g :: rest => do
      let gc := resolveCols merged.cols suffix g.2
      if 1 < gc.length then
        let m ← calculate_correlation merged gc (some (-5, 5))
        let tl ← processGroups merged country suffix rest
        Except.ok ((g.1, m) :: tl.1, tl.2)
      else
        let tl ← processGroups merged country suffix rest
        Except.ok (tl.1,
          ("Not enough data for " ++ g.1 ++ " metrics in " ++ country ++ ".") :: tl.2)

/-- The outer `for country, suffix in country_suffix.items()` loop. -/
def processCountries (merged : DataFrame) (mg : List (String × List String)) :
    List (String × String) →
    Except String (List (String × List (String × CorrMatrix)) × List String)
  | [] => Except.ok ([], [])
  | c :: rest => do
      let r ← processGroups merged c.1 c.2 mg
      let tl ← processCountries merged mg rest
      Except.ok ((c.1, r.1) :: tl.1, r.2 ++ tl.2)

/-- `compute_country_correlation_matrices(merged_data, metric_groups,
country_suffix)`: returns the nested country → group → matrix dictionary plus
the skip reports it printed. -/
def compute_country_correlation_matrices (merged : DataFrame)
    (mg : List (String × List String)) (cs : List (String × String)) :
    Except String (List (String × List (String × CorrMatrix)) × List String) :=
  processCountries merged mg cs

/-! ## highlight_key_correlations_all_matrices -/

/-- `matrix.where(~np.eye(n, dtype=bool))`: the positional diagonal becomes
`NaN`, everything else is kept. -/
def maskDiag (m : CorrMatrix) : CorrMatrix :=
  m.enum.map (fun ir => (ir.2.1, ir.2.2.enum.map (fun jc =>
    (jc.2.1, if ir.1 = jc.1 then CorrEntry.nan else jc.2.2))))

/-- `flattened.unstack()`: the matrix as one labelled series.  (pandas
enumerates column-major; only which labels are *present* matters below, so the
row-major order used here is equivalent.) -/
def flattenMatrix (m : CorrMatrix) : List ((String × String) × CorrEntry) :=
  m.flatMap (fun rc => rc.2.map (fun cc => ((rc.1, cc.1), cc.2)))

/-- Decidable comparison of the real numbers denoted by two non-NaN entries
`n₁/√d₁ ≤ n₂/√d₂` (the stored `denSq`s are positive products of nonzero
scatters): by sign analysis and squaring. -/
def CorrEntry.leB : CorrEntry → CorrEntry → Bool
  | CorrEntry.val n1 d1, CorrEntry.val n2 d2 =>
      if n1 ≤ 0 then
        (if 0 ≤ n2 then true else decide (n2 * n2 * d1 ≤ n1 * n1 * d2))
      else
        (if n2 ≤ 0 then false else decide (n1 * n1 * d2 ≤ n2 * n2 * d1))
  | _, _ => false

/-- `Series.idxmax` with its value, over a labelled series: skips `NaN`
entries, keeps the first occurrence of the maximum, and — as pandas (< 3.0,
the versions this 2024 project runs on) does — yields `NaN` (here `none`)
instead of raising when every entry is `NaN`. -/
def pickMax (l : List ((String × String) × CorrEntry)) :
    Option ((String × String) × CorrEntry) :=
  l.foldl (fun acc p =>
    match p.2 with
    | CorrEntry.nan => acc
    | CorrEntry.val _ _ =>
        match acc with
        | none => some p
        | some q => if CorrEntry.leB p.2 q.2 then some q else some p) none

/-- `Series.idxmin` with its value; same conventions as `pickMax`. -/
def pickMin (l : List ((String × String) × CorrEntry)) :
    Option ((String × String) × CorrEntry) :=
  l.foldl (fun acc p =>
    match p.2 with
    | CorrEntry.nan => acc
    | CorrEntry.val _ _ =>
        match acc with
        | none => some p
        | some q => if CorrEntry.leB q.2 p.2 then some q else some p) none

/-- `highlight_key_correlations_all_matrices(correlation_matrices, country)`:
for each group's matrix, masks the diagonal and reports the strongest and
weakest remaining entry (`none` when nothing remains, the pandas < 3.0
all-NaN `idxmax`/`idxmin` outcome, which formats as `nan` and does not raise). -/
def highlight_key_correlations_all_matrices (ms : List (String × CorrMatrix))
    (country : String) :
    List (String × (Option ((String × String) × CorrEntry) ×
                    Option ((String × String) × CorrEntry))) :=
  ms.map (fun gm =>
    let fl := flattenMatrix (maskDiag gm.2)
    (gm.1, (pickMax fl, pickMin fl)))

/-! ## predefined_correlation_analysis -/

/-- The module-level `predefined_combinations` table:
key ↦ (description, (metric1, metric2)). -/
def predefined_combinations : List (String × String × String × String) :=
  [("1", ("Do GDP and FDI correlated?", ("GDP_per_capita", "FDI"))),
   ("2", ("How does fiscal policy impact government consumption?",
          ("GDP_per_capita", "Gov_Consumption"))),
   ("3", ("Does tourism impact economic growth?", ("Num_Arrivals", "GDP_per_capita"))),
   ("4", ("Health trade-offs", ("Obesity_rate", "Underweight_rate"))),
   ("5", ("Environmental cost of economic growth", ("GDP_per_capita", "MtCO2e"))),
   ("6", ("Does increasing tourism lead to higher GHG emission?",
          ("Num_Arrivals", "MtCO2e"))),
   ("7", ("Economic growth's effect on employment",
          ("Unemployment_Rate(%)", "GDP_per_capita")))]

/-- Outcome of one run of `predefined_correlation_analysis`: the function
only reads `merged_data` (it never writes a column or row), so the merged
table cannot be modified by any outcome. -/
inductive AnalysisOutcome where
  | invalidSelection : AnalysisOutcome
  | invalidCountry : AnalysisOutcome
  | missingColumns : AnalysisOutcome
  | ok (r : CorrEntry) : AnalysisOutcome
deriving DecidableEq

/-- `predefined_correlation_analysis(merged_data)` with the two interactive
`input()` values passed as arguments (`rawKey` is `.strip()`ped, `rawCountry`
is `.strip().upper()`ed, as in the source).  An unrecognized key returns
before the country prompt is even read; an unrecognized country returns
before any column access; otherwise the scalar
`merged_data[[c1, c2]].corr().iloc[0, 1]` is computed. -/
def predefined_correlation_analysis (merged : DataFrame) (rawKey rawCountry : String) :
    AnalysisOutcome :=
  match predefined_combinations.find? (fun p => p.1 == pyStrip rawKey) with
  | none => AnalysisOutcome.invalidSelection
  | some p =>
      let country := pyUpper (pyStrip rawCountry)
      if country = "AUS" ∨ country = "CHI" then
        let c1 := p.2.2.1 ++ "_" ++ country
        let c2 := p.2.2.2 ++ "_" ++ country
        if c1 ∈ merged.cols ∧ c2 ∈ merged.cols then
          AnalysisOutcome.ok (pearsonEntry (pairedVals merged c1 c2))
        else AnalysisOutcome.missingColumns
      else AnalysisOutcome.invalidCountry

/-! ## General lemmas about the embedding -/

theorem exbind_ok {α β : Type} (a : α) (f : α → Except String β) :
    (Except.ok a >>= f) = f a := rfl

theorem exbind_inv {α β : Type} {e : Except String α} {f : α → Except String β} {b : β}
    (h : (e >>= f) = Except.ok b) : ∃ a, e = Except.ok a ∧ f a = Except.ok b := by
  cases e with
  | ok a => exact ⟨a, rfl, h⟩
  | error s => simp [Bind.bind, Except.bind] at h

theorem exbindE_ok {α β : Type} (a : α) (f : α → Except String β) :
    (Except.ok a).bind f = f a := rfl

theorem exbindE_inv {α β : Type} {e : Except String α} {f : α → Except String β} {b : β}
    (h : e.bind f = Except.ok b) : ∃ a, e = Except.ok a ∧ f a = Except.ok b := by
  cases e with
  | ok a => exact ⟨a, rfl, h⟩
  | error s => simp [Except.bind] at h

theorem colIdx_isSome_of_mem {cols : List String} {c : String} (h : c ∈ cols) :
    ∃ i, colIdx cols c = some i := by
  induction cols with
  | nil => cases h
  | cons d ds ih =>
      by_cases hd : d = c
      · exact ⟨0, by simp [colIdx, hd]⟩
      · have hds : c ∈ ds := by
          rcases List.mem_cons.mp h with h' | h'
          · exact absurd h'.symm hd
          · exact h'
        rcases ih hds with ⟨i, hi⟩
        exact ⟨i + 1, by simp [colIdx, hd, hi]⟩

theorem colIdx_eq_none_of_not_mem {cols : List String} {c : String} (h : c ∉ cols) :
    colIdx cols c = none := by
  induction cols with
  | nil => rfl
  | cons d ds ih =>
      have hd : ¬ d = c := fun e => h (e ▸ List.mem_cons_self d ds)
      have hds : c ∉ ds := fun m => h (List.mem_cons_of_mem _ m)
      simp [colIdx, hd, ih hds]

theorem colIdx_lt {cols : List String} {c : String} {i : Nat}
    (h : colIdx cols c = some i) : i < cols.length := by
  induction cols generalizing i with
  | nil => cases h
  | cons d ds ih =>
      by_cases hd : d = c
      · simp only [colIdx, if_pos hd, Option.some.injEq] at h
        simp [← h]
      · simp only [colIdx, if_neg hd, Option.map_eq_some'] at h
        rcases h with ⟨j, hj, rfl⟩
        have := ih hj
        simp only [List.length_cons]
        omega

theorem colIdx_append_left {cols ext : List String} {c : String} (h : c ∈ cols) :
    colIdx (cols ++ ext) c = colIdx cols c := by
  induction cols with
  | nil => cases h
  | cons d ds ih =>
      by_cases hd : d = c
      · simp [colIdx, hd]
      · have hds : c ∈ ds := by
          rcases List.mem_cons.mp h with h' | h'
          · exact absurd h'.symm hd
          · exact h'
        simp [colIdx, hd, ih hds]

theorem colIdx_append_right {cols ext : List String} {c : String} (h : c ∉ cols) :
    colIdx (cols ++ ext) c = (colIdx ext c).map (fun i => i + cols.length) := by
  induction cols with
  | nil => simp
  | cons d ds ih =>
      have hd : ¬ d = c := fun e => h (e ▸ List.mem_cons_self d ds)
      have hds : c ∉ ds := fun m => h (List.mem_cons_of_mem _ m)
      simp only [List.cons_append, colIdx, if_neg hd, List.length_cons, List.append_eq]
      rw [ih hds]
      cases colIdx ext c with
      | none => rfl
      | some i => simp; omega

theorem cellVal_cons_self {d : String} {cols : List String} {w : Option ℚ}
    {cells : List (Option ℚ)} : cellVal (d :: cols) (w :: cells) d = w := by
  simp [cellVal, colIdx]

theorem cellVal_cons_ne {d c : String} {cols : List String} {w : Option ℚ}
    {cells : List (Option ℚ)} (h : ¬ d = c) :
    cellVal (d :: cols) (w :: cells) c = cellVal cols cells c := by
  simp only [cellVal, colIdx, if_neg h]
  cases colIdx cols c <;> simp

theorem cellVal_append_left {cols ext : List String} {cells more : List (Option ℚ)}
    {c : String} (hc : c ∈ cols) (hlen : cells.length = cols.length) :
    cellVal (cols ++ ext) (cells ++ more) c = cellVal cols cells c := by
  obtain ⟨i, hi⟩ := colIdx_isSome_of_mem hc
  have hilt : i < cells.length := hlen ▸ colIdx_lt hi
  simp [cellVal, colIdx_append_left hc, hi, List.getElem?_append, hilt]

theorem cellVal_append_new {cols : List String} {cells : List (Option ℚ)}
    {c : String} {v : Option ℚ} (hc : c ∉ cols) (hlen : cells.length = cols.length) :
    cellVal (cols ++ [c]) (cells ++ [v]) c = v := by
  have h0 : colIdx [c] c = some 0 := by simp [colIdx]
  simp [cellVal, colIdx_append_right hc, h0, List.getElem?_append, hlen]

theorem find_label_range' {α : Type} :
    ∀ (l : List (Nat × α)) (k m j : Nat), l.map Prod.fst = List.range' k m →
      k ≤ j → j < k + m → l.find? (fun r => r.1 == j) = l[j - k]?
  | [], k, m, j, h, hk, hm => by
      have : m = 0 := by
        by_contra hne
        have := congrArg List.length h
        simp [List.length_range'] at this
        omega
      omega
  | r :: t, k, m, j, h, hk, hm => by
      cases m with
      | zero => simp [List.range'] at h
      | succ m' =>
          rw [List.range'_succ] at h
          simp only [List.map_cons, List.cons.injEq] at h
          obtain ⟨hr, ht⟩ := h
          by_cases hjk : j = k
          · subst hjk
            simp [List.find?, hr]
          · have hbeq : (r.1 == j) = false := by
              simp [hr]; omega
            have hrec := find_label_range' t (k + 1) m' j ht (by omega) (by omega)
            have hidx : j - k = (j - (k + 1)) + 1 := by omega
            simp only [List.find?, hbeq]
            rw [hrec, hidx]
            simp

theorem find_label {α : Type} {l : List (Nat × α)} {j : Nat}
    (h : l.map Prod.fst = List.range l.length) (hj : j < l.length) :
    l.find? (fun r => r.1 == j) = l[j]? := by
  have := find_label_range' l 0 l.length j (by rw [h, List.range_eq_range']) (by omega)
    (by omega)
  simpa using this

theorem getColVals_ok_inv {df : DataFrame} {c : String} {vs : List (Option ℚ)}
    (h : getColVals df c = Except.ok vs) :
    c ∈ df.cols ∧ vs = df.rows.map (fun r => cellVal df.cols r.2 c) := by
  unfold getColVals at h
  by_cases hm : c ∈ df.cols
  · simp [hm] at h
    exact ⟨hm, h.symm⟩
  · simp [hm] at h

theorem locCell_of_getCol {df : DataFrame} {metric : String} {vs : List (Option ℚ)}
    (hv : getColVals df metric = Except.ok vs)
    (hl : df.rows.map Prod.fst = List.range df.rows.length)
    {j : Nat} (hj : j < df.rows.length) :
    locCell df j metric = Except.ok (vs.getD j none) := by
  obtain ⟨hm, hvs⟩ := getColVals_ok_inv hv
  obtain ⟨i, hi⟩ := colIdx_isSome_of_mem hm
  have hfind : df.rows.find? (fun r => r.1 == j) = df.rows[j]? := find_label hl hj
  have hget : df.rows[j]? = some df.rows[j] := List.getElem?_eq_getElem hj
  have hvj : vs.getD j none = (df.rows[j].2[i]?).getD none := by
    subst hvs
    rw [List.getD_eq_getElem?_getD]
    rw [List.getElem?_map, hget]
    simp [cellVal, hi]
  rw [hvj]
  unfold locCell
  rw [hfind, hget, hi]

theorem growthAux_eq {df : DataFrame} {metric : String} {vs : List (Option ℚ)}
    (hv : getColVals df metric = Except.ok vs)
    (hl : df.rows.map Prod.fst = List.range df.rows.length) :
    ∀ js : List Nat, (∀ j ∈ js, j + 1 < df.rows.length) →
      growthAux df metric js
        = Except.ok (js.map (fun j => growthStep (vs.getD j none) (vs.getD (j + 1) none)))
  | [], _ => rfl
  | j :: js, h => by
      have h1 : j + 1 < df.rows.length := h j (List.mem_cons_self _ _)
      have hp := locCell_of_getCol hv hl (j := j) (by omega)
      have hc := locCell_of_getCol hv hl (j := j + 1) h1
      have ih := growthAux_eq hv hl js (fun x hx => h x (List.mem_cons_of_mem _ hx))
      simp only [growthAux]
      rw [hp, exbind_ok, hc, exbind_ok, ih, exbind_ok]
      simp

theorem growthRates_eq {df : DataFrame} {metric : String} {vs : List (Option ℚ)}
    (hv : getColVals df metric = Except.ok vs)
    (hl : df.rows.map Prod.fst = List.range df.rows.length) :
    growthRates df metric = Except.ok (some 0 ::
      (List.range (df.rows.length - 1)).map
        (fun j => growthStep (vs.getD j none) (vs.getD (j + 1) none))) := by
  have haux := growthAux_eq hv hl (List.range (df.rows.length - 1))
    (fun j hj => by have := List.mem_range.mp hj; omega)
  simp only [growthRates]
  rw [haux, exbind_ok]

/-- Claim C1: for every table with at least one row and default `0..n-1`
labels (the state in which `calculate_growth_rate` receives its frame), the
growth list has element 0 equal to 0 and, for `i > 0`, element `i` equal to
`0` when the metric value at row `i-1` is exactly `0` and to
`(value[i] - value[i-1]) / value[i-1] * 100` otherwise; in particular the
value sequence `[100, 150, 0, 50]` yields `[0, 50, -100, 0]`. -/
theorem c1_growth_rate_values (df : DataFrame) (metric : String) (vals : List ℚ)
    (hv : getColVals df metric = Except.ok (vals.map some))
    (hl : df.rows.map Prod.fst = List.range df.rows.length)
    (hn : 1 ≤ vals.length) :
    (∃ g, growthRates df metric = Except.ok g ∧ g.length = vals.length ∧
      g[0]? = some (some 0) ∧
      ∀ i : Nat, ∀ hi : i + 1 < vals.length,
        g[i + 1]? = some (if vals[i] = 0 then some 0
          else some ((vals[i + 1] - vals[i]) / vals[i] * 100))) ∧
    growthRates ⟨["v"], [(0, [some 100]), (1, [some 150]), (2, [some 0]), (3, [some 50])]⟩ "v"
      = Except.ok [some 0, some 50, some (-100), some 0] := by
  constructor
  · have hlen : df.rows.length = vals.length := by
      obtain ⟨hm, hvs⟩ := getColVals_ok_inv hv
      have := congrArg List.length hvs
      simp at this
      omega
    refine ⟨_, growthRates_eq hv hl, ?_, ?_, ?_⟩
    · simp only [List.length_cons, List.length_map, List.length_range]
      omega
    · simp
    · intro i hi
      have hi' : i < df.rows.length - 1 := by omega
      rw [List.getElem?_cons_succ, List.getElem?_map, List.getElem?_range hi']
      simp only [Option.map_some']
      have hgi : (vals.map some).getD i none = some vals[i] := by
        rw [List.getD_eq_getElem?_getD, List.getElem?_map,
          List.getElem?_eq_getElem (by omega : i < vals.length)]
        rfl
      have hgi1 : (vals.map some).getD (i + 1) none = some vals[i + 1] := by
        rw [List.getD_eq_getElem?_getD, List.getElem?_map,
          List.getElem?_eq_getElem (by omega : i + 1 < vals.length)]
        rfl
      rw [hgi, hgi1]
      simp [growthStep]
  · norm_num +decide [growthRates, growthAux, locCell, growthStep, colIdx,
      List.range, List.range.loop, Bind.bind, Except.bind,
      List.find?_cons_of_pos, List.find?_cons_of_neg, Nat.beq]

theorem c1_growth_rate_values_witness :
    getColVals ⟨["v"], [(0, [some 100]), (1, [some 150]), (2, [some 0]), (3, [some 50])]⟩ "v"
      = Except.ok ([(100 : ℚ), 150, 0, 50].map some) ∧
    growthRates ⟨["v"], [(0, [some 100]), (1, [some 150]), (2, [some 0]), (3, [some 50])]⟩ "v"
      = Except.ok [some 0, some 50, some (-100), some 0] :=
  ⟨by rfl,
   (c1_growth_rate_values ⟨["v"], [(0, [some 100]), (1, [some 150]), (2, [some 0]), (3, [some 50])]⟩
      "v" [100, 150, 0, 50] (by rfl) (by rfl) (by decide)).2⟩

/-- Claim C10: the growth list always has length `max 1 n`: for `n ≥ 1` rows
the assignment of the `Growth Rate (%)` column succeeds, while for the empty
frame the list is `[0]` and the assignment fails with the pandas
length-mismatch `ValueError` rather than returning an empty augmented
table. -/
theorem c10_growth_list_length (df : DataFrame) (metric : String) (vs : List (Option ℚ))
    (hv : getColVals df metric = Except.ok vs)
    (hl : df.rows.map Prod.fst = List.range df.rows.length) :
    ((1 ≤ df.rows.length → ∃ g df2, growthRates df metric = Except.ok g ∧
        g.length = df.rows.length ∧ calculate_growth_rate df metric = Except.ok df2) ∧
     (df.rows.length = 0 → growthRates df metric = Except.ok [some 0] ∧
        calculate_growth_rate df metric
          = Except.error "Length of values does not match length of index")) ∧
    calculate_growth_rate ⟨["v"], []⟩ "v"
      = Except.error "Length of values does not match length of index" := by
  refine ⟨⟨?_, ?_⟩, by rfl⟩
  · intro hn
    have hg := growthRates_eq hv hl
    have hglen : ((some (0:ℚ)) :: (List.range (df.rows.length - 1)).map
        (fun j => growthStep (vs.getD j none) (vs.getD (j + 1) none))).length
        = df.rows.length := by
      simp only [List.length_cons, List.length_map, List.length_range]
      omega
    have hset : ∃ df2, setColumn df "Growth Rate (%)"
        ((some (0:ℚ)) :: (List.range (df.rows.length - 1)).map
          (fun j => growthStep (vs.getD j none) (vs.getD (j + 1) none)))
        = Except.ok df2 := by
      unfold setColumn
      rw [if_pos hglen]
      cases colIdx df.cols "Growth Rate (%)" <;> exact ⟨_, rfl⟩
    obtain ⟨df2, hdf2⟩ := hset
    refine ⟨_, df2, hg, hglen, ?_⟩
    unfold calculate_growth_rate
    rw [hg, exbind_ok, hdf2]
  · intro h0
    have hg := growthRates_eq hv hl
    rw [h0] at hg
    have hg2 : growthRates df metric = Except.ok [some 0] := by rw [hg]; exact rfl
    refine ⟨hg2, ?_⟩
    unfold calculate_growth_rate
    rw [hg2, exbind_ok]
    unfold setColumn
    rw [if_neg (by rw [h0]; decide)]

theorem c10_growth_list_length_witness :
    getColVals ⟨["v"], [(0, [some 5])]⟩ "v" = Except.ok [some 5] ∧
    calculate_growth_rate ⟨["v"], []⟩ "v"
      = Except.error "Length of values does not match length of index" :=
  ⟨by rfl,
   (c10_growth_list_length ⟨["v"], [(0, [some 5])]⟩ "v" [some 5]
      (by rfl) (by rfl)).2⟩

/-- Claim C2 (failing evaluation): on the descending-Year frame
`Year = [2001, 2000]`, `v = [200, 100]` with `host_year = 2000`, the rows are
indeed sorted ascending before `calculate_growth_rate` runs, but because
`sort_values` keeps the permuted index labels and `calculate_growth_rate`
reads `df.loc[i, ...]` by *label*, the growth values are computed over the
original descending sequence and then assigned positionally: the ascending
row for Year 2001 receives `(100-200)/200*100 = -50` instead of the
`(200-100)/100*100 = 100` the claim requires. -/
theorem c2_growth_after_sort_uses_stale_labels :
    ((index_rename_and_calculate_growth_rate
        ⟨["Year", "v"], [(0, [some 2001, some 200]), (1, [some 2000, some 100])]⟩
        [] 2000 "v").bind (fun r => getColVals r "Year")
      = Except.ok [some 2000, some 2001]) ∧
    ((index_rename_and_calculate_growth_rate
        ⟨["Year", "v"], [(0, [some 2001, some 200]), (1, [some 2000, some 100])]⟩
        [] 2000 "v").bind (fun r => getColVals r "Growth Rate (%)")
      = Except.ok [some 0, some (-50)]) ∧
    ((index_rename_and_calculate_growth_rate
        ⟨["Year", "v"], [(0, [some 2001, some 200]), (1, [some 2000, some 100])]⟩
        [] 2000 "v").bind (fun r => getColVals r "Growth Rate (%)")
      ≠ Except.ok [some 0, some 100]) := by
  have hB : (index_rename_and_calculate_growth_rate
        ⟨["Year", "v"], [(0, [some 2001, some 200]), (1, [some 2000, some 100])]⟩
        [] 2000 "v").bind (fun r => getColVals r "Growth Rate (%)")
      = Except.ok [some 0, some (-50)] := by
    norm_num +decide [index_rename_and_calculate_growth_rate, reset_index, stripCols,
      renameCols, pyStrip, isSpaceChar, getColVals, cellVal, colIdx, optGtB, sortByYear,
      rowLeByYear, yearLeB, calculate_growth_rate, growthRates, growthAux, locCell,
      growthStep, setColumn, headE, lastE, List.insertionSort, List.orderedInsert,
      List.range, List.range.loop, Bind.bind, Except.bind, List.find?_cons_of_pos,
      List.find?_cons_of_neg, Nat.beq, List.enum, List.enumFrom, List.zip, List.zipWith]
  have hA : (index_rename_and_calculate_growth_rate
        ⟨["Year", "v"], [(0, [some 2001, some 200]), (1, [some 2000, some 100])]⟩
        [] 2000 "v").bind (fun r => getColVals r "Year")
      = Except.ok [some 2000, some 2001] := by
    norm_num +decide [index_rename_and_calculate_growth_rate, reset_index, stripCols,
      renameCols, pyStrip, isSpaceChar, getColVals, cellVal, colIdx, optGtB, sortByYear,
      rowLeByYear, yearLeB, calculate_growth_rate, growthRates, growthAux, locCell,
      growthStep, setColumn, headE, lastE, List.insertionSort, List.orderedInsert,
      List.range, List.range.loop, Bind.bind, Except.bind, List.find?_cons_of_pos,
      List.find?_cons_of_neg, Nat.beq, List.enum, List.enumFrom, List.zip, List.zipWith]
  refine ⟨hA, hB, ?_⟩
  intro h
  rw [hB] at h
  simp only [Except.ok.injEq, List.cons.injEq, Option.some.injEq] at h
  have : (-50 : ℚ) = 100 := h.2.1
  norm_num at this

/-- Claim C7: for every matrices dictionary containing a 1x1 correlation
matrix, `highlight_key_correlations_all_matrices` does not raise: every group
(the 1x1 one included) still gets a report entry, and the 1x1 group's
strongest/weakest highlights are the all-NaN `idxmax`/`idxmin` outcome
(`none`, pandas < 3.0 behaviour; masking the diagonal of a 1x1 matrix leaves
only NaN). -/
theorem c7_highlight_1x1_total (ms : List (String × CorrMatrix)) (country : String)
    (g l l2 : String) (e : CorrEntry)
    (hmem : ((g, [(l, [(l2, e)])]) : String × CorrMatrix) ∈ ms) :
    (highlight_key_correlations_all_matrices ms country).length = ms.length ∧
    (g, ((none : Option ((String × String) × CorrEntry)),
         (none : Option ((String × String) × CorrEntry))))
      ∈ highlight_key_correlations_all_matrices ms country := by
  constructor
  · simp [highlight_key_correlations_all_matrices]
  · have : (g, ((none : Option ((String × String) × CorrEntry)),
        (none : Option ((String × String) × CorrEntry))))
        ∈ ms.map (fun gm =>
          (gm.1, (pickMax (flattenMatrix (maskDiag gm.2)),
                  pickMin (flattenMatrix (maskDiag gm.2))))) :=
      List.mem_map.mpr ⟨(g, [(l, [(l2, e)])]), hmem, rfl⟩
    exact this

theorem c7_highlight_1x1_total_witness :
    ("Environmental", ((none : Option ((String × String) × CorrEntry)),
        (none : Option ((String × String) × CorrEntry))))
      ∈ highlight_key_correlations_all_matrices
        [("Environmental", [("MtCO2e_AUS", [("MtCO2e_AUS", CorrEntry.val 1 1)])])]
        "Australia" :=
  (c7_highlight_1x1_total
    [("Environmental", [("MtCO2e_AUS", [("MtCO2e_AUS", CorrEntry.val 1 1)])])]
    "Australia" "Environmental" "MtCO2e_AUS" "MtCO2e_AUS" (CorrEntry.val 1 1)
    (List.mem_singleton.mpr rfl)).2

/-- Claim C9: a combination key that does not strip to one of the predefined
keys makes `predefined_correlation_analysis` report `InvalidSelection` and
abort; a recognized key with a country tag that does not normalize to `AUS`
or `CHI` makes it report the invalid country and abort; in neither case is a
correlation computed (and the function only ever reads the merged table, so
it is never modified). -/
theorem c9_invalid_selection_aborts (merged : DataFrame) (rawKey rawCountry : String) :
    (pyStrip rawKey ∉ predefined_combinations.map (fun p => p.1) →
      predefined_correlation_analysis merged rawKey rawCountry
        = AnalysisOutcome.invalidSelection) ∧
    (pyUpper (pyStrip rawCountry) ≠ "AUS" → pyUpper (pyStrip rawCountry) ≠ "CHI" →
      (predefined_correlation_analysis merged rawKey rawCountry
          = AnalysisOutcome.invalidSelection ∨
       predefined_correlation_analysis merged rawKey rawCountry
          = AnalysisOutcome.invalidCountry)) ∧
    (∀ r : CorrEntry,
      pyStrip rawKey ∉ predefined_combinations.map (fun p => p.1) ∨
        (pyUpper (pyStrip rawCountry) ≠ "AUS" ∧ pyUpper (pyStrip rawCountry) ≠ "CHI") →
      predefined_correlation_analysis merged rawKey rawCountry ≠ AnalysisOutcome.ok r) := by
  have hkey : pyStrip rawKey ∉ predefined_combinations.map (fun p => p.1) →
      predefined_correlation_analysis merged rawKey rawCountry
        = AnalysisOutcome.invalidSelection := by
    intro h
    have hfind : predefined_combinations.find? (fun p => p.1 == pyStrip rawKey) = none := by
      rw [List.find?_eq_none]
      intro p hp
      simp only [beq_iff_eq]
      intro heq
      exact h (List.mem_map.mpr ⟨p, hp, heq⟩)
    unfold predefined_correlation_analysis
    rw [hfind]
  have hcountry : pyUpper (pyStrip rawCountry) ≠ "AUS" →
      pyUpper (pyStrip rawCountry) ≠ "CHI" →
      (predefined_correlation_analysis merged rawKey rawCountry
          = AnalysisOutcome.invalidSelection ∨
       predefined_correlation_analysis merged rawKey rawCountry
          = AnalysisOutcome.invalidCountry) := by
    intro h1 h2
    cases hfind : predefined_combinations.find? (fun p => p.1 == pyStrip rawKey) with
    | none =>
        left
        simp only [predefined_correlation_analysis, hfind]
    | some p =>
        right
        simp only [predefined_correlation_analysis, hfind]
        rw [if_neg]
        rintro (ha | hc)
        · exact h1 ha
        · exact h2 hc
  refine ⟨hkey, hcountry, ?_⟩
  rintro r (h | ⟨h1, h2⟩)
  · rw [hkey h]
    intro h
    cases h
  · rcases hcountry h1 h2 with h3 | h3 <;> rw [h3] <;> intro h <;> cases h

theorem c9_invalid_selection_aborts_witness :
    predefined_correlation_analysis ⟨[], []⟩ "9" "AUS"
      = AnalysisOutcome.invalidSelection ∧
    (predefined_correlation_analysis ⟨[], []⟩ "1" " usa "
        = AnalysisOutcome.invalidSelection ∨
     predefined_correlation_analysis ⟨[], []⟩ "1" " usa "
        = AnalysisOutcome.invalidCountry) :=
  ⟨(c9_invalid_selection_aborts ⟨[], []⟩ "9" "AUS").1 (by decide),
   (c9_invalid_selection_aborts ⟨[], []⟩ "1" " usa ").2.1 (by decide) (by decide)⟩

/-! ## Correlation lemmas -/

theorem contains_iff_mem {l : List String} {a : String} : l.contains a = true ↔ a ∈ l := by
  unfold List.contains
  exact List.elem_iff

theorem resolveCols_sub {cols : List String} {suffix : String} {ms : List String} :
    ∀ c ∈ resolveCols cols suffix ms, c ∈ cols := by
  intro c hc
  unfold resolveCols at hc
  have := (List.mem_filter.mp hc).2
  exact contains_iff_mem.mp this

theorem betweenFilter_cols (df : DataFrame) (lo hi : ℚ) :
    (betweenFilter df lo hi).cols = df.cols := rfl

theorem betweenFilter_mem (df : DataFrame) (lo hi : ℚ) (r : Nat × List (Option ℚ)) :
    r ∈ (betweenFilter df lo hi).rows ↔ (r ∈ df.rows ∧
      ∃ v, cellVal df.cols r.2 "Relative Year" = some v ∧ lo ≤ v ∧ v ≤ hi) := by
  unfold betweenFilter
  simp only [List.mem_filter]
  constructor
  · rintro ⟨hmem, hcond⟩
    refine ⟨hmem, ?_⟩
    cases hcell : cellVal df.cols r.2 "Relative Year" with
    | none => rw [hcell] at hcond; cases hcond
    | some v =>
        rw [hcell] at hcond
        simp only [Bool.and_eq_true, decide_eq_true_eq] at hcond
        exact ⟨v, rfl, hcond.1, hcond.2⟩
  · rintro ⟨hmem, v, hcell, h1, h2⟩
    refine ⟨hmem, ?_⟩
    rw [hcell]
    simp [h1, h2]

theorem calculate_correlation_windowed (df : DataFrame) (metrics : List String)
    (lo hi : ℚ) (hRV : "Relative Year" ∈ df.cols) (hms : ∀ m ∈ metrics, m ∈ df.cols) :
    calculate_correlation df metrics (some (lo, hi))
      = Except.ok (corrOfFrame (betweenFilter df lo hi) metrics) := by
  unfold calculate_correlation applyWindow
  simp only [if_pos hRV, exbindE_ok]
  rw [if_pos]
  rw [List.all_eq_true]
  intro m hm
  rw [contains_iff_mem]
  exact hms m hm

/-- The per-country group-matrix dictionary `compute_country_correlation_matrices`
builds for one country (derived closed form of `processGroups`). -/
def groupEntries (merged : DataFrame) (suffix : String)
    (mg : List (String × List String)) : List (String × CorrMatrix) :=
  mg.filterMap (fun g =>
    if 1 < (resolveCols merged.cols suffix g.2).length then
      some (g.1, corrOfFrame (betweenFilter merged (-5) 5)
        (resolveCols merged.cols suffix g.2))
    else none)

/-- The skip reports `compute_country_correlation_matrices` prints for one
country (derived closed form of `processGroups`). -/
def groupSkips (merged : DataFrame) (country suffix : String)
    (mg : List (String × List String)) : List String :=
  mg.filterMap (fun g =>
    if 1 < (resolveCols merged.cols suffix g.2).length then none
    else some ("Not enough data for " ++ g.1 ++ " metrics in " ++ country ++ "."))

theorem processGroups_eq (merged : DataFrame) (country suffix : String)
    (hRV : "Relative Year" ∈ merged.cols) :
    ∀ mg, processGroups merged country suffix mg
      = Except.ok (groupEntries merged suffix mg, groupSkips merged country suffix mg)
  | [] => rfl
  | g :: mg => by
      have ih := processGroups_eq merged country suffix hRV mg
      by_cases hlen : 1 < (resolveCols merged.cols suffix g.2).length
      · have hcc := calculate_correlation_windowed merged
          (resolveCols merged.cols suffix g.2) (-5) 5 hRV
          (fun m hm => resolveCols_sub m hm)
        simp only [processGroups, if_pos hlen, hcc, exbind_ok, ih]
        simp only [groupEntries, groupSkips, List.filterMap_cons, if_pos hlen]
      · simp only [processGroups, if_neg hlen, ih, exbind_ok]
        simp only [groupEntries, groupSkips, List.filterMap_cons, if_neg hlen]

theorem processCountries_eq (merged : DataFrame) (mg : List (String × List String))
    (hRV : "Relative Year" ∈ merged.cols) :
    ∀ cs, processCountries merged mg cs
      = Except.ok (cs.map (fun c => (c.1, groupEntries merged c.2 mg)),
                   cs.flatMap (fun c => groupSkips merged c.1 c.2 mg))
  | [] => rfl
  | c :: cs => by
      have ih := processCountries_eq merged mg hRV cs
      simp only [processCountries, processGroups_eq merged c.1 c.2 hRV mg, exbind_ok, ih]
      simp only [List.map_cons, List.flatMap_cons]

theorem nodup_key_unique {α β : Type} {l : List (α × β)}
    (h : (l.map Prod.fst).Nodup) {a : α} {b c : β}
    (hb : (a, b) ∈ l) (hc : (a, c) ∈ l) : b = c := by
  induction l with
  | nil => cases hb
  | cons hd tl ih =>
      simp only [List.map_cons, List.nodup_cons] at h
      rcases List.mem_cons.mp hb with hb1 | hb1 <;> rcases List.mem_cons.mp hc with hc1 | hc1
      · rw [← hb1] at hc1
        exact (congrArg Prod.snd hc1.symm : _)
      · exfalso
        exact h.1 (List.mem_map.mpr ⟨(a, c), hc1, by rw [← hb1]⟩)
      · exfalso
        exact h.1 (List.mem_map.mpr ⟨(a, b), hb1, by rw [← hc1]⟩)
      · exact ih h.2 hb1 hc1

/-- Claim C5: `calculate_correlation` with a window keeps exactly the rows
whose Relative Year lies within the inclusive bounds and returns the pairwise
Pearson matrix over exactly the given metric columns, and
`compute_country_correlation_matrices` invokes it with the fixed default
window `-5..5`. -/
theorem c5_correlation_window (df : DataFrame) (metrics : List String) (lo hi : ℚ) :
    (∀ r, r ∈ (betweenFilter df lo hi).rows ↔ (r ∈ df.rows ∧
        ∃ v, cellVal df.cols r.2 "Relative Year" = some v ∧ lo ≤ v ∧ v ≤ hi)) ∧
    ("Relative Year" ∈ df.cols → (∀ m ∈ metrics, m ∈ df.cols) →
      calculate_correlation df metrics (some (lo, hi))
        = Except.ok (corrOfFrame (betweenFilter df lo hi) metrics)) ∧
    ((corrOfFrame (betweenFilter df lo hi) metrics).map (fun r => r.1) = metrics) ∧
    (∀ merged : DataFrame, ∀ mg : List (String × List String),
      ∀ cs : List (String × String), "Relative Year" ∈ merged.cols →
      ∀ c ∈ cs, ∀ g ms, (g, ms) ∈ mg →
        1 < (resolveCols merged.cols c.2 ms).length →
        ∃ M rep, compute_country_correlation_matrices merged mg cs
            = Except.ok (M, rep) ∧
          (g, corrOfFrame (betweenFilter merged (-5) 5)
              (resolveCols merged.cols c.2 ms)) ∈ groupEntries merged c.2 mg ∧
          (c.1, groupEntries merged c.2 mg) ∈ M) := by
  refine ⟨betweenFilter_mem df lo hi, calculate_correlation_windowed df metrics lo hi, ?_, ?_⟩
  · unfold corrOfFrame
    rw [List.map_map]
    exact List.map_id'' (fun x => rfl) metrics
  · intro merged mg cs hRV c hc g ms hg hlen
    refine ⟨_, _, processCountries_eq merged mg hRV cs, ?_, ?_⟩
    · unfold groupEntries
      exact List.mem_filterMap.mpr ⟨(g, ms), hg, by rw [if_pos hlen]⟩
    · exact List.mem_map.mpr ⟨c, hc, rfl⟩

theorem c5_correlation_window_witness :
    calculate_correlation
        ⟨["Relative Year", "A", "B"],
         [(0, [some 0, some 1, some 1]), (1, [some 1, some 2, some 2]),
          (2, [some 7, some 4, some 4])]⟩
        ["A", "B"] (some (0, 5))
      = Except.ok (corrOfFrame
          (betweenFilter
            ⟨["Relative Year", "A", "B"],
             [(0, [some 0, some 1, some 1]), (1, [some 1, some 2, some 2]),
              (2, [some 7, some 4, some 4])]⟩ 0 5)
          ["A", "B"]) :=
  (c5_correlation_window
    ⟨["Relative Year", "A", "B"],
     [(0, [some 0, some 1, some 1]), (1, [some 1, some 2, some 2]),
      (2, [some 7, some 4, some 4])]⟩
    ["A", "B"] 0 5).2.1 (by decide) (by decide)

/-- Claim C4: for every merged table (with its Relative Year key), metric-group
mapping and country-suffix mapping, `compute_country_correlation_matrices`
returns normally (no exception); a (country, group) pair whose group resolves
fewer than 2 matching `{metric}{suffix}` columns gets no matrix entry and a
reported skip message, while every pair resolving at least 2 columns still
gets its matrix. -/
theorem c4_skip_small_groups (merged : DataFrame) (mg : List (String × List String))
    (cs : List (String × String)) (hRV : "Relative Year" ∈ merged.cols)
    (hnd : (mg.map Prod.fst).Nodup) :
    compute_country_correlation_matrices merged mg cs
      = Except.ok (cs.map (fun c => (c.1, groupEntries merged c.2 mg)),
                   cs.flatMap (fun c => groupSkips merged c.1 c.2 mg)) ∧
    ∀ c ∈ cs, ∀ g ms, (g, ms) ∈ mg →
      (((resolveCols merged.cols c.2 ms).length ≤ 1 →
        (∀ mat, (g, mat) ∉ groupEntries merged c.2 mg) ∧
        ("Not enough data for " ++ g ++ " metrics in " ++ c.1 ++ ".")
          ∈ cs.flatMap (fun c2 => groupSkips merged c2.1 c2.2 mg)) ∧
       (1 < (resolveCols merged.cols c.2 ms).length →
        (g, corrOfFrame (betweenFilter merged (-5) 5) (resolveCols merged.cols c.2 ms))
          ∈ groupEntries merged c.2 mg)) := by
  refine ⟨processCountries_eq merged mg hRV cs, ?_⟩
  intro c hc g ms hg
  constructor
  · intro hle
    constructor
    · intro mat hmat
      obtain ⟨g', hg', heq⟩ := List.mem_filterMap.mp hmat
      rcases g' with ⟨g1, ms1⟩
      by_cases hlen : 1 < (resolveCols merged.cols c.2 ms1).length
      · rw [if_pos hlen] at heq
        simp only [Option.some.injEq, Prod.mk.injEq] at heq
        obtain ⟨h1, _⟩ := heq
        subst h1
        have h2 : ms = ms1 := nodup_key_unique hnd hg hg'
        subst h2
        exact absurd (Nat.lt_of_lt_of_le hlen (Nat.le_refl _)) (Nat.not_lt.mpr hle)
      · rw [if_neg hlen] at heq
        cases heq
    · refine List.mem_flatMap.mpr ⟨c, hc, ?_⟩
      refine List.mem_filterMap.mpr ⟨(g, ms), hg, ?_⟩
      rw [if_neg (show ¬ 1 < (resolveCols merged.cols c.2 (g, ms).2).length from
        Nat.not_lt.mpr hle)]
  · intro hlen
    exact List.mem_filterMap.mpr ⟨(g, ms), hg, by rw [if_pos hlen]⟩

theorem c4_skip_small_groups_witness :
    compute_country_correlation_matrices
        ⟨["Relative Year", "GDP_AUS"], [(0, [some 0, some 1]), (1, [some 1, some 2])]⟩
        [("Economic", ["GDP", "FDI"])] [("AUS", "_AUS")]
      = Except.ok
          ([("AUS", "_AUS")].map (fun c => (c.1,
            groupEntries
              ⟨["Relative Year", "GDP_AUS"], [(0, [some 0, some 1]), (1, [some 1, some 2])]⟩
              c.2 [("Economic", ["GDP", "FDI"])])),
           [("AUS", "_AUS")].flatMap (fun c =>
            groupSkips
              ⟨["Relative Year", "GDP_AUS"], [(0, [some 0, some 1]), (1, [some 1, some 2])]⟩
              c.1 c.2 [("Economic", ["GDP", "FDI"])])) :=
  (c4_skip_small_groups
    ⟨["Relative Year", "GDP_AUS"], [(0, [some 0, some 1]), (1, [some 1, some 2])]⟩
    [("Economic", ["GDP", "FDI"])] [("AUS", "_AUS")]
    (by decide) (by decide)).1

/-! ## Pearson entry lemmas (symmetry, diagonal, identical columns) -/

/-- The non-NaN values of one column, the sample the diagonal Pearson entry
is computed from. -/
def colValsSome (df : DataFrame) (c : String) : List ℚ :=
  df.rows.filterMap (fun r => cellVal df.cols r.2 c)

/-- The entry of a correlation matrix at positional row `i`, column `j`. -/
def entryAt (M : CorrMatrix) (i j : Nat) : Option CorrEntry :=
  (M[i]?).bind (fun row => (row.2[j]?).map (fun cc => cc.2))

theorem calculate_correlation_ok_frame {df : DataFrame} {metrics : List String}
    {tp : Option (ℚ × ℚ)} {M : CorrMatrix}
    (h : calculate_correlation df metrics tp = Except.ok M) :
    ∃ dfu : DataFrame, M = corrOfFrame dfu metrics := by
  unfold calculate_correlation at h
  obtain ⟨dfw, _, h2⟩ := exbindE_inv h
  by_cases hall : metrics.all (fun m => dfw.cols.contains m) = true
  · rw [if_pos hall] at h2
    exact ⟨dfw, (Except.ok.inj h2).symm⟩
  · rw [if_neg hall] at h2
    cases h2

theorem pairedVals_swap (df : DataFrame) (c1 c2 : String) :
    pairedVals df c2 c1 = (pairedVals df c1 c2).map Prod.swap := by
  unfold pairedVals
  rw [List.map_filterMap]
  apply List.filterMap_congr
  intro r _
  cases cellVal df.cols r.2 c1 <;> cases cellVal df.cols r.2 c2 <;> simp

theorem pearsonEntry_swap (ps : List (ℚ × ℚ)) :
    pearsonEntry (ps.map Prod.swap) = pearsonEntry ps := by
  simp only [pearsonEntry, List.map_map, List.length_map]
  have h1 : List.map ((fun p : ℚ × ℚ => p.1) ∘ Prod.swap) ps
      = List.map (fun p : ℚ × ℚ => p.2) ps :=
    List.map_congr_left (fun a _ => rfl)
  have h2 : List.map ((fun p : ℚ × ℚ => p.2) ∘ Prod.swap) ps
      = List.map (fun p : ℚ × ℚ => p.1) ps :=
    List.map_congr_left (fun a _ => rfl)
  have h3 : List.map ((fun p : ℚ × ℚ => p.1 * p.2) ∘ Prod.swap) ps
      = List.map (fun p : ℚ × ℚ => p.1 * p.2) ps :=
    List.map_congr_left (fun a _ => mul_comm _ _)
  have h4 : List.map ((fun x : ℚ => x * x) ∘ (fun p : ℚ × ℚ => p.1) ∘ Prod.swap) ps
      = List.map ((fun x : ℚ => x * x) ∘ (fun p : ℚ × ℚ => p.2)) ps :=
    List.map_congr_left (fun a _ => rfl)
  have h5 : List.map ((fun x : ℚ => x * x) ∘ (fun p : ℚ × ℚ => p.2) ∘ Prod.swap) ps
      = List.map ((fun x : ℚ => x * x) ∘ (fun p : ℚ × ℚ => p.1)) ps :=
    List.map_congr_left (fun a _ => rfl)
  rw [h1, h2, h3, h4, h5]
  simp only [or_comm]
  congr 1
  congr 1 <;> ring

theorem pairedVals_eq_dup {df : DataFrame} {c1 c2 : String}
    (h : ∀ r ∈ df.rows, cellVal df.cols r.2 c1 = cellVal df.cols r.2 c2) :
    pairedVals df c1 c2 = (colValsSome df c1).map (fun a => (a, a)) := by
  unfold pairedVals colValsSome
  rw [List.map_filterMap]
  apply List.filterMap_congr
  intro r hr
  rw [← h r hr]
  cases cellVal df.cols r.2 c1 <;> simp

theorem pearsonEntry_dup (l : List ℚ) :
    pearsonEntry (l.map (fun a => (a, a)))
      = if scatterNum l = 0 then CorrEntry.nan
        else CorrEntry.val (scatterNum l) (scatterNum l * scatterNum l) := by
  simp only [pearsonEntry, scatterNum, List.map_map, List.length_map]
  have h1 : List.map ((fun p : ℚ × ℚ => p.1) ∘ (fun a : ℚ => (a, a))) l = l :=
    List.map_id'' (fun x => rfl) l
  have h2 : List.map ((fun p : ℚ × ℚ => p.2) ∘ (fun a : ℚ => (a, a))) l = l :=
    List.map_id'' (fun x => rfl) l
  have h3 : List.map ((fun p : ℚ × ℚ => p.1 * p.2) ∘ (fun a : ℚ => (a, a))) l
      = List.map (fun x => x * x) l :=
    List.map_congr_left (fun a _ => rfl)
  have h4 : List.map ((fun x : ℚ => x * x) ∘ (fun p : ℚ × ℚ => p.1) ∘ (fun a : ℚ => (a, a))) l
      = List.map (fun x => x * x) l :=
    List.map_congr_left (fun a _ => rfl)
  have h5 : List.map ((fun x : ℚ => x * x) ∘ (fun p : ℚ × ℚ => p.2) ∘ (fun a : ℚ => (a, a))) l
      = List.map (fun x => x * x) l :=
    List.map_congr_left (fun a _ => rfl)
  rw [h1, h2, h3, h4, h5]
  simp only [or_self]

theorem sq_sum_helper (a : ℚ) : ∀ l : List ℚ,
    0 ≤ (l.length : ℚ) * (a * a) - 2 * a * l.sum + (l.map (fun x => x * x)).sum
  | [] => by simp
  | x :: l => by
      have ih := sq_sum_helper a l
      simp only [List.length_cons, List.sum_cons, List.map_cons]
      push_cast
      nlinarith [sq_nonneg (a - x)]

theorem scatterNum_nonneg : ∀ l : List ℚ, 0 ≤ scatterNum l
  | [] => by simp [scatterNum]
  | a :: l => by
      have ih := scatterNum_nonneg l
      have h2 := sq_sum_helper a l
      simp only [scatterNum, List.length_cons, List.sum_cons, List.map_cons] at *
      push_cast at *
      nlinarith

theorem toReal_val_sq {s : ℚ} (hpos : 0 < s) :
    CorrEntry.toReal (CorrEntry.val s (s * s)) = some 1 := by
  unfold CorrEntry.toReal
  congr 1
  push_cast
  rw [Real.sqrt_mul_self (by positivity)]
  have hne : ((s : ℝ)) ≠ 0 := by positivity
  field_simp

theorem entryAt_corrOfFrame_lt {dfu : DataFrame} {metrics : List String} {i j : Nat}
    (hi : i < metrics.length) (hj : j < metrics.length) :
    entryAt (corrOfFrame dfu metrics) i j
      = some (pearsonEntry (pairedVals dfu metrics[i] metrics[j])) := by
  unfold entryAt corrOfFrame
  rw [List.getElem?_map, List.getElem?_eq_getElem hi]
  simp only [Option.map_some', Option.some_bind]
  rw [List.getElem?_map, List.getElem?_eq_getElem hj]
  simp

theorem entryAt_corrOfFrame_left_oob {dfu : DataFrame} {metrics : List String} {i j : Nat}
    (hi : ¬ i < metrics.length) :
    entryAt (corrOfFrame dfu metrics) i j = none := by
  unfold entryAt corrOfFrame
  rw [List.getElem?_map, List.getElem?_eq_none (by omega)]
  rfl

theorem entryAt_corrOfFrame_right_oob {dfu : DataFrame} {metrics : List String} {i j : Nat}
    (hi : i < metrics.length) (hj : ¬ j < metrics.length) :
    entryAt (corrOfFrame dfu metrics) i j = none := by
  unfold entryAt corrOfFrame
  rw [List.getElem?_map, List.getElem?_eq_getElem hi]
  simp only [Option.map_some', Option.some_bind]
  rw [List.getElem?_map, List.getElem?_eq_none (by omega)]
  rfl

theorem pearson_diag_entry (dfu : DataFrame) (c : String) :
    pearsonEntry (pairedVals dfu c c)
      = if scatterNum (colValsSome dfu c) = 0 then CorrEntry.nan
        else CorrEntry.val (scatterNum (colValsSome dfu c))
          (scatterNum (colValsSome dfu c) * scatterNum (colValsSome dfu c)) := by
  rw [pairedVals_eq_dup (fun r _ => rfl), pearsonEntry_dup]

/-- Claim C6: every matrix returned by `calculate_correlation` is symmetric;
each diagonal entry is 1.0, or the NaN marker exactly when the column has
zero variance (zero scatter) in the filtered rows — never a crash; and for
two identical (non-constant) columns the correlation entry denotes 1.0. -/
theorem c6_corr_symmetric_diag (df : DataFrame) (metrics : List String)
    (tp : Option (ℚ × ℚ)) (M : CorrMatrix)
    (h : calculate_correlation df metrics tp = Except.ok M) :
    ∃ dfu : DataFrame, M = corrOfFrame dfu metrics ∧
      (∀ i j, entryAt M i j = entryAt M j i) ∧
      (∀ i, ∀ hi : i < metrics.length, ∃ e, entryAt M i i = some e ∧
        ((e = CorrEntry.nan ∧ scatterNum (colValsSome dfu metrics[i]) = 0) ∨
          CorrEntry.toReal e = some 1)) ∧
      (∀ i j, ∀ hi : i < metrics.length, ∀ hj : j < metrics.length,
        (∀ r ∈ dfu.rows,
          cellVal dfu.cols r.2 metrics[i] = cellVal dfu.cols r.2 metrics[j]) →
        scatterNum (colValsSome dfu metrics[i]) ≠ 0 →
        ∃ e, entryAt M i j = some e ∧ CorrEntry.toReal e = some 1) := by
  obtain ⟨dfu, hM⟩ := calculate_correlation_ok_frame h
  subst hM
  refine ⟨dfu, rfl, ?_, ?_, ?_⟩
  · intro i j
    by_cases hi : i < metrics.length
    · by_cases hj : j < metrics.length
      · rw [entryAt_corrOfFrame_lt hi hj, entryAt_corrOfFrame_lt hj hi,
          pairedVals_swap dfu metrics[i] metrics[j], pearsonEntry_swap]
      · rw [entryAt_corrOfFrame_right_oob hi hj, entryAt_corrOfFrame_left_oob hj]
    · by_cases hj : j < metrics.length
      · rw [entryAt_corrOfFrame_left_oob hi, entryAt_corrOfFrame_right_oob hj hi]
      · rw [entryAt_corrOfFrame_left_oob hi, entryAt_corrOfFrame_left_oob hj]
  · intro i hi
    by_cases hz : scatterNum (colValsSome dfu metrics[i]) = 0
    · refine ⟨CorrEntry.nan, ?_, Or.inl ⟨rfl, hz⟩⟩
      rw [entryAt_corrOfFrame_lt hi hi, pearson_diag_entry, if_pos hz]
    · refine ⟨_, ?_, Or.inr (toReal_val_sq
        (lt_of_le_of_ne (scatterNum_nonneg _) (Ne.symm hz)))⟩
      rw [entryAt_corrOfFrame_lt hi hi, pearson_diag_entry, if_neg hz]
  · intro i j hi hj hcols hz
    refine ⟨_, ?_, toReal_val_sq (lt_of_le_of_ne (scatterNum_nonneg _) (Ne.symm hz))⟩
    rw [entryAt_corrOfFrame_lt hi hj, pairedVals_eq_dup hcols, pearsonEntry_dup,
      if_neg hz]

theorem c6_corr_symmetric_diag_witness :
    entryAt (corrOfFrame
        ⟨["Relative Year", "A", "B"],
         [(0, [some 0, some 1, some 1]), (1, [some 1, some 2, some 2])]⟩
        ["A", "B"]) 0 1
      = entryAt (corrOfFrame
        ⟨["Relative Year", "A", "B"],
         [(0, [some 0, some 1, some 1]), (1, [some 1, some 2, some 2])]⟩
        ["A", "B"]) 1 0 := by
  obtain ⟨dfu, hM, hsym, hdiag, hpair⟩ := c6_corr_symmetric_diag
    ⟨["Relative Year", "A", "B"],
     [(0, [some 0, some 1, some 1]), (1, [some 1, some 2, some 2])]⟩
    ["A", "B"] none
    (corrOfFrame
      ⟨["Relative Year", "A", "B"],
       [(0, [some 0, some 1, some 1]), (1, [some 1, some 2, some 2])]⟩
      ["A", "B"]) rfl
  exact hsym 0 1

/-! ## Frame-operation lemmas for the normalizer (claim C8) -/

theorem colIdx_getElem {cols : List String} {c : String} {i : Nat}
    (h : colIdx cols c = some i) : cols[i]? = some c := by
  induction cols generalizing i with
  | nil => cases h
  | cons d ds ih =>
      by_cases hd : d = c
      · simp only [colIdx, if_pos hd, Option.some.injEq] at h
        subst hd
        rw [← h]
        simp
      · simp only [colIdx, if_neg hd, Option.map_eq_some'] at h
        rcases h with ⟨j, hj, rfl⟩
        simpa using ih hj

theorem colIdx_none_not_mem {cols : List String} {c : String}
    (h : colIdx cols c = none) : c ∉ cols := by
  intro hmem
  rcases colIdx_isSome_of_mem hmem with ⟨i, hi⟩
  rw [hi] at h
  cases h

theorem headE_ok_inv {l : List (Option ℚ)} {v : Option ℚ}
    (h : headE l = Except.ok v) : l.head? = some v := by
  unfold headE at h
  cases hh : l.head? with
  | none => rw [hh] at h; cases h
  | some w =>
      rw [hh] at h
      exact congrArg some (Except.ok.inj h)

theorem lastE_ok_inv {l : List (Option ℚ)} {v : Option ℚ}
    (h : lastE l = Except.ok v) : l.getLast? = some v := by
  unfold lastE at h
  cases hh : l.getLast? with
  | none => rw [hh] at h; cases h
  | some w =>
      rw [hh] at h
      exact congrArg some (Except.ok.inj h)

theorem headE_ok {l : List (Option ℚ)} {v : Option ℚ}
    (h : l.head? = some v) : headE l = Except.ok v := by
  unfold headE
  rw [h]

theorem lastE_ok {l : List (Option ℚ)} {v : Option ℚ}
    (h : l.getLast? = some v) : lastE l = Except.ok v := by
  unfold lastE
  rw [h]

theorem yearLeB_total (a b : Option ℚ) : yearLeB a b = true ∨ yearLeB b a = true := by
  cases a <;> cases b <;> simp [yearLeB]
  exact le_total _ _

theorem yearLeB_trans {a b c : Option ℚ} (h1 : yearLeB a b = true)
    (h2 : yearLeB b c = true) : yearLeB a c = true := by
  cases a <;> cases b <;> cases c <;> simp_all [yearLeB]
  try exact le_trans h1 h2

theorem not_optGt_of_yearLe {a b : Option ℚ} (h : yearLeB a b = true) :
    optGtB a b = false := by
  cases a <;> cases b <;> simp_all [yearLeB, optGtB]
  try exact not_lt.mpr h

theorem optGt_self_false (a : Option ℚ) : optGtB a a = false := by
  cases a <;> simp [optGtB]

theorem sorted_year_not_gt {cols : List String} {rows : List (Nat × List (Option ℚ))}
    (hs : List.Sorted (rowLeByYear cols) rows) {v0 vl : Option ℚ}
    (h0 : (rows.map (fun r => cellVal cols r.2 "Year")).head? = some v0)
    (hl : (rows.map (fun r => cellVal cols r.2 "Year")).getLast? = some vl) :
    optGtB v0 vl = false := by
  rw [List.head?_eq_getElem?] at h0
  rw [List.getLast?_eq_getElem?] at hl
  rcases Nat.eq_zero_or_pos rows.length with hz | hpos
  · rw [List.getElem?_eq_none (by simp [hz])] at h0
    cases h0
  · have hlt0 : 0 < rows.length := hpos
    have hltl : rows.length - 1 < rows.length := by omega
    obtain ⟨r0, hr0⟩ : ∃ r, rows[0]? = some r := ⟨_, List.getElem?_eq_getElem hlt0⟩
    obtain ⟨rl, hrl⟩ : ∃ r, rows[rows.length - 1]? = some r :=
      ⟨_, List.getElem?_eq_getElem hltl⟩
    have h0' : v0 = cellVal cols r0.2 "Year" := by
      rw [List.getElem?_map, hr0] at h0
      exact (Option.some.inj h0).symm
    have hl' : vl = cellVal cols rl.2 "Year" := by
      rw [List.length_map, List.getElem?_map, hrl] at hl
      exact (Option.some.inj hl).symm
    by_cases h1 : rows.length ≤ 1
    · have hz1 : rows.length - 1 = 0 := by omega
      rw [hz1] at hrl
      have he : r0 = rl := Option.some.inj (hr0.symm.trans hrl)
      rw [h0', hl', ← he]
      exact optGt_self_false _
    · have e0 : rows[0] = r0 :=
        Option.some.inj ((List.getElem?_eq_getElem hlt0).symm.trans hr0)
      have el : rows[rows.length - 1] = rl :=
        Option.some.inj ((List.getElem?_eq_getElem hltl).symm.trans hrl)
      have hpair := (List.pairwise_iff_getElem.mp hs) 0 (rows.length - 1)
        hlt0 hltl (by omega)
      rw [e0, el] at hpair
      rw [h0', hl']
      exact not_optGt_of_yearLe hpair

theorem stripCols_eq_self {df : DataFrame} (h : df.cols.map (fun c => pyStrip c) = df.cols) :
    stripCols df = df := by
  unfold stripCols
  cases df with
  | mk cols rows =>
      simp only at h
      simp only [h]

theorem renameCols_id {df : DataFrame} {rd : List (String × String)}
    (h : ∀ p ∈ rd, p.1 ∉ df.cols) : renameCols df rd = df := by
  unfold renameCols
  cases df with
  | mk cols rows =>
      simp only
      congr 1
      have hpt : ∀ c ∈ cols, (((rd.find? (fun p => p.1 == c)).map (fun p => p.2)).getD c)
          = (fun c => c) c := by
        intro c hc
        have : rd.find? (fun p => p.1 == c) = none := by
          rw [List.find?_eq_none]
          intro p hp
          simp only [beq_iff_eq]
          intro he
          exact h p hp (he ▸ hc)
        rw [this]
        rfl
      rw [List.map_congr_left hpt, List.map_id']

theorem reset_index_spec {df : DataFrame}
    (hsafe : ("index" : String) ∉ df.cols ∨ ("level_0" : String) ∉ df.cols) :
    ∃ nm df2, reset_index df = Except.ok df2 ∧
      (nm = "index" ∨ nm = "level_0") ∧ nm ∉ df.cols ∧
      df2.cols = nm :: df.cols ∧
      df2.rows.map Prod.fst = List.range df.rows.length ∧
      df2.rows.length = df.rows.length ∧
      (Aligned df → Aligned df2) ∧
      (∀ c ∈ df.cols, getColVals df2 c = getColVals df c) := by
  have main : ∀ nm : String, nm ∉ df.cols →
      ∀ df2 : DataFrame, df2 = ⟨nm :: df.cols,
        df.rows.enum.map (fun ir => (ir.1, some ((ir.2.1 : ℚ)) :: ir.2.2))⟩ →
      df2.rows.map Prod.fst = List.range df.rows.length ∧
      df2.rows.length = df.rows.length ∧
      (Aligned df → Aligned df2) ∧
      (∀ c ∈ df.cols, getColVals df2 c = getColVals df c) := by
    intro nm hnm df2 hdf2
    subst hdf2
    refine ⟨?_, ?_, ?_, ?_⟩
    · simp only [List.map_map]
      rw [List.map_congr_left
        (fun ir _ => rfl :
          ∀ ir ∈ df.rows.enum, (Prod.fst ∘ fun ir : Nat × (Nat × List (Option ℚ)) =>
            (ir.1, some ((ir.2.1 : ℚ)) :: ir.2.2)) ir = Prod.fst ir)]
      exact List.enum_map_fst df.rows
    · simp [List.enum_length]
    · intro hal r2 hr2
      obtain ⟨ir, hir, hf⟩ := List.mem_map.mp hr2
      have hmem : ir.2 ∈ df.rows := by
        have : ir.2 ∈ df.rows.enum.map Prod.snd := List.mem_map.mpr ⟨ir, hir, rfl⟩
        rwa [List.enum_map_snd] at this
      rw [← hf]
      simp only [List.length_cons]
      rw [hal ir.2 hmem]
    · intro c hc
      have hne : ¬ nm = c := fun he => hnm (he ▸ hc)
      have hc2 : c ∈ nm :: df.cols := List.mem_cons_of_mem _ hc
      unfold getColVals
      rw [if_pos hc2, if_pos hc]
      congr 1
      simp only [List.map_map]
      rw [List.map_congr_left (fun ir _ => ?_), ← List.map_map, List.enum_map_snd]
      exact cellVal_cons_ne hne
  by_cases hin : ("index" : String) ∈ df.cols
  · have hnm : ("level_0" : String) ∉ df.cols := by
      rcases hsafe with h | h
      · exact absurd hin h
      · exact h
    have hok : reset_index df = Except.ok ⟨"level_0" :: df.cols,
        df.rows.enum.map (fun ir => (ir.1, some ((ir.2.1 : ℚ)) :: ir.2.2))⟩ := by
      unfold reset_index
      simp only [if_pos hin, if_neg hnm]
    exact ⟨"level_0", _, hok, Or.inr rfl, hnm, rfl, main "level_0" hnm _ rfl⟩
  · have hok : reset_index df = Except.ok ⟨"index" :: df.cols,
        df.rows.enum.map (fun ir => (ir.1, some ((ir.2.1 : ℚ)) :: ir.2.2))⟩ := by
      unfold reset_index
      simp only [if_neg hin]
    exact ⟨"index", _, hok, Or.inl rfl, hin, rfl, main "index" hin _ rfl⟩

theorem setColumn_spec {df : DataFrame} {col : String} {vals : List (Option ℚ)}
    (hlen : vals.length = df.rows.length) (hal : Aligned df) :
    ∃ df2, setColumn df col vals = Except.ok df2 ∧
      df2.rows.length = df.rows.length ∧ Aligned df2 ∧
      (∀ c, c ∈ df.cols → c ∈ df2.cols) ∧
      col ∈ df2.cols ∧
      (∀ c, c ∈ df.cols → ¬ c = col → getColVals df2 c = getColVals df c) ∧
      getColVals df2 col = Except.ok vals := by
  have hzlen : (df.rows.zip vals).length = df.rows.length := by
    rw [List.length_zip, hlen]
    exact Nat.min_self _
  have hmem_zip : ∀ rv ∈ df.rows.zip vals, rv.1 ∈ df.rows := fun rv hrv =>
    (List.of_mem_zip hrv).1
  cases hidx : colIdx df.cols col with
  | some i =>
      have hcoli : df.cols[i]? = some col := colIdx_getElem hidx
      have hcol_mem : col ∈ df.cols := List.mem_iff_getElem?.mpr ⟨i, hcoli⟩
      have hilt : i < df.cols.length := colIdx_lt hidx
      have hok : setColumn df col vals = Except.ok ⟨df.cols,
          (df.rows.zip vals).map (fun rv => (rv.1.1, rv.1.2.set i rv.2))⟩ := by
        unfold setColumn
        rw [if_pos hlen, hidx]
      refine ⟨_, hok, ?_, ?_, fun c hc => hc, hcol_mem, ?_, ?_⟩
      · simp [hzlen]
      · intro r2 hr2
        obtain ⟨rv, hrv, hf⟩ := List.mem_map.mp hr2
        rw [← hf]
        simp only [List.length_set]
        exact hal rv.1 (hmem_zip rv hrv)
      · intro c hc hne
        obtain ⟨jc, hjc⟩ := colIdx_isSome_of_mem hc
        have hjne : i ≠ jc := by
          intro he
          have hg := colIdx_getElem hjc
          rw [← he, hcoli] at hg
          exact hne (Option.some.inj hg).symm
        unfold getColVals
        rw [if_pos hc, if_pos hc]
        congr 1
        simp only [List.map_map]
        have hcongr : List.map ((fun r : Nat × List (Option ℚ) => cellVal df.cols r.2 c) ∘
              (fun rv : (Nat × List (Option ℚ)) × Option ℚ => (rv.1.1, rv.1.2.set i rv.2)))
              (df.rows.zip vals)
            = List.map ((fun r : Nat × List (Option ℚ) => cellVal df.cols r.2 c) ∘ Prod.fst)
              (df.rows.zip vals) := by
          apply List.map_congr_left
          intro rv _
          show cellVal df.cols (rv.1.2.set i rv.2) c = cellVal df.cols rv.1.2 c
          unfold cellVal
          rw [hjc]
          simp only [Option.some_bind]
          rw [List.getElem?_set_ne hjne]
        rw [hcongr, ← List.map_map, List.map_fst_zip _ _ (le_of_eq hlen.symm)]
      · unfold getColVals
        rw [if_pos hcol_mem]
        congr 1
        simp only [List.map_map]
        have hcongr : List.map ((fun r : Nat × List (Option ℚ) => cellVal df.cols r.2 col) ∘
              (fun rv : (Nat × List (Option ℚ)) × Option ℚ => (rv.1.1, rv.1.2.set i rv.2)))
              (df.rows.zip vals)
            = List.map Prod.snd (df.rows.zip vals) := by
          apply List.map_congr_left
          intro rv hrv
          show cellVal df.cols (rv.1.2.set i rv.2) col = rv.2
          unfold cellVal
          rw [hidx]
          simp only [Option.some_bind]
          rw [List.getElem?_set_self (by rw [hal rv.1 (hmem_zip rv hrv)]; exact hilt)]
          rfl
        rw [hcongr, List.map_snd_zip _ _ (le_of_eq hlen)]
  | none =>
      have hcol_not : col ∉ df.cols := colIdx_none_not_mem hidx
      have hok : setColumn df col vals = Except.ok ⟨df.cols ++ [col],
          (df.rows.zip vals).map (fun rv => (rv.1.1, rv.1.2 ++ [rv.2]))⟩ := by
        unfold setColumn
        rw [if_pos hlen, hidx]
      have hcolmem2 : col ∈ df.cols ++ [col] :=
        List.mem_append.mpr (Or.inr (List.mem_singleton.mpr rfl))
      refine ⟨_, hok, ?_, ?_, fun c hc => List.mem_append.mpr (Or.inl hc), hcolmem2, ?_, ?_⟩
      · simp [hzlen]
      · intro r2 hr2
        obtain ⟨rv, hrv, hf⟩ := List.mem_map.mp hr2
        rw [← hf]
        simp only [List.length_append, List.length_cons, List.length_nil]
        rw [hal rv.1 (hmem_zip rv hrv)]
      · intro c hc hne
        unfold getColVals
        rw [if_pos (List.mem_append.mpr (Or.inl hc)), if_pos hc]
        congr 1
        simp only [List.map_map]
        have hcongr : List.map ((fun r : Nat × List (Option ℚ) =>
              cellVal (df.cols ++ [col]) r.2 c) ∘
              (fun rv : (Nat × List (Option ℚ)) × Option ℚ => (rv.1.1, rv.1.2 ++ [rv.2])))
              (df.rows.zip vals)
            = List.map ((fun r : Nat × List (Option ℚ) => cellVal df.cols r.2 c) ∘ Prod.fst)
              (df.rows.zip vals) := by
          apply List.map_congr_left
          intro rv hrv
          show cellVal (df.cols ++ [col]) (rv.1.2 ++ [rv.2]) c = cellVal df.cols rv.1.2 c
          exact cellVal_append_left hc (hal rv.1 (hmem_zip rv hrv))
        rw [hcongr, ← List.map_map, List.map_fst_zip _ _ (le_of_eq hlen.symm)]
      · unfold getColVals
        rw [if_pos hcolmem2]
        congr 1
        simp only [List.map_map]
        have hcongr : List.map ((fun r : Nat × List (Option ℚ) =>
              cellVal (df.cols ++ [col]) r.2 col) ∘
              (fun rv : (Nat × List (Option ℚ)) × Option ℚ => (rv.1.1, rv.1.2 ++ [rv.2])))
              (df.rows.zip vals)
            = List.map Prod.snd (df.rows.zip vals) := by
          apply List.map_congr_left
          intro rv hrv
          show cellVal (df.cols ++ [col]) (rv.1.2 ++ [rv.2]) col = rv.2
          exact cellVal_append_new hcol_not (hal rv.1 (hmem_zip rv hrv))
        rw [hcongr, List.map_snd_zip _ _ (le_of_eq hlen)]

theorem getColVals_of_mem {df : DataFrame} {c : String} (hc : c ∈ df.cols) :
    getColVals df c = Except.ok (df.rows.map (fun r => cellVal df.cols r.2 c)) := by
  unfold getColVals
  rw [if_pos hc]

theorem aligned_stripCols {df : DataFrame} (h : Aligned df) : Aligned (stripCols df) := by
  intro r hr
  have := h r hr
  simpa [stripCols] using this

theorem aligned_renameCols {df : DataFrame} {rd : List (String × String)}
    (h : Aligned df) : Aligned (renameCols df rd) := by
  intro r hr
  have := h r hr
  simpa [renameCols] using this

theorem aligned_sortByYear {df : DataFrame} (h : Aligned df) : Aligned (sortByYear df) := by
  intro r hr
  have hmem : r ∈ df.rows :=
    (List.perm_insertionSort (rowLeByYear df.cols) df.rows).mem_iff.mp hr
  exact h r hmem

theorem sortByYear_rows_length (df : DataFrame) :
    (sortByYear df).rows.length = df.rows.length :=
  (List.perm_insertionSort (rowLeByYear df.cols) df.rows).length_eq

theorem setColumn_ok_len {df df2 : DataFrame} {col : String} {vals : List (Option ℚ)}
    (h : setColumn df col vals = Except.ok df2) : vals.length = df.rows.length := by
  unfold setColumn at h
  by_cases hlen : vals.length = df.rows.length
  · exact hlen
  · rw [if_neg hlen] at h
    cases h

theorem setColumn_ok_props {df df2 : DataFrame} {col : String} {vals : List (Option ℚ)}
    (h : setColumn df col vals = Except.ok df2) (hal : Aligned df) :
    df2.rows.length = df.rows.length ∧ Aligned df2 ∧
    (∀ c, c ∈ df.cols → c ∈ df2.cols) ∧ col ∈ df2.cols ∧
    (∀ c, c ∈ df.cols → ¬ c = col → getColVals df2 c = getColVals df c) ∧
    getColVals df2 col = Except.ok vals := by
  obtain ⟨df2', hok', hp⟩ := setColumn_spec (setColumn_ok_len h) hal
  rw [hok'] at h
  rw [← Except.ok.inj h]
  exact hp

theorem calculate_growth_rate_ok_props {df df5 : DataFrame} {metric : String}
    (h : calculate_growth_rate df metric = Except.ok df5) (hal : Aligned df) :
    df5.rows.length = df.rows.length ∧ Aligned df5 ∧
    (∀ c, c ∈ df.cols → c ∈ df5.cols) ∧
    (∀ c, c ∈ df.cols → ¬ c = "Growth Rate (%)" → getColVals df5 c = getColVals df c) := by
  unfold calculate_growth_rate at h
  obtain ⟨g, _, hset⟩ := exbind_inv h
  obtain ⟨hcnt, hal5, hmono, _, hne, _⟩ := setColumn_ok_props hset hal
  exact ⟨hcnt, hal5, hmono, fun c hc hcne => hne c hc hcne⟩

theorem calculate_growth_rate_spec {df : DataFrame} {metric : String}
    (hm : metric ∈ df.cols)
    (hl : df.rows.map Prod.fst = List.range df.rows.length)
    (hal : Aligned df) (hn : 1 ≤ df.rows.length) :
    ∃ df5, calculate_growth_rate df metric = Except.ok df5 := by
  have hv := getColVals_of_mem hm
  have hg := growthRates_eq hv hl
  have hglen : ((some (0:ℚ)) :: (List.range (df.rows.length - 1)).map
      (fun j => growthStep ((df.rows.map (fun r => cellVal df.cols r.2 metric)).getD j none)
        ((df.rows.map (fun r => cellVal df.cols r.2 metric)).getD (j + 1) none))).length
      = df.rows.length := by
    simp only [List.length_cons, List.length_map, List.length_range]
    omega
  obtain ⟨df5, hok, _⟩ := setColumn_spec hglen hal
  refine ⟨df5, ?_⟩
  unfold calculate_growth_rate
  rw [hg, exbind_ok, hok]

theorem reset_index_ok_aligned {df df2 : DataFrame} (h : reset_index df = Except.ok df2)
    (hal : Aligned df) : Aligned df2 := by
  have hsafe : ("index" : String) ∉ df.cols ∨ ("level_0" : String) ∉ df.cols := by
    by_cases hin : ("index" : String) ∈ df.cols
    · by_cases hl : ("level_0" : String) ∈ df.cols
      · exfalso
        unfold reset_index at h
        simp only [if_pos hin, if_pos hl] at h
        cases h
      · exact Or.inr hl
    · exact Or.inl hin
  obtain ⟨nm, df2', hok, _, _, _, _, _, halp, _⟩ := reset_index_spec hsafe
  rw [hok] at h
  rw [← Except.ok.inj h]
  exact halp hal

theorem aligned_stripRename {df : DataFrame} (rd : List (String × String)) (h : Aligned df) :
    Aligned (if rd.isEmpty then stripCols df else renameCols (stripCols df) rd) := by
  by_cases hre : rd.isEmpty = true
  · rw [if_pos hre]
    exact aligned_stripCols h
  · rw [if_neg hre]
    exact aligned_renameCols (aligned_stripCols h)

/-- Claim C8: running `index_rename_and_calculate_growth_rate` a second time on
its own output with the same `host_year` yields the same `Relative Year`
column: the derivation `Relative Year = Year - host_year` is a pure function of
the (unchanged) `Year` column, so re-derivation is idempotent, even though the
second run inserts an extra `level_0` index column and recomputes growth.  The
hypotheses say that the first run succeeded on an aligned frame, that its
output has whitespace-clean column names and no `level_0` column yet, that the
rename dictionary does not touch the index columns or any existing column, and
that the metric column exists in the output. -/
theorem c8_relative_year_idempotent (df df1 : DataFrame) (rd : List (String × String))
    (host : ℚ) (metric : String)
    (hAl : Aligned df)
    (h1 : index_rename_and_calculate_growth_rate df rd host metric = Except.ok df1)
    (htrim : df1.cols.map (fun c => pyStrip c) = df1.cols)
    (hlev : ("level_0" : String) ∉ df1.cols)
    (hrd : ∀ p ∈ rd, p.1 ∉ ("index" :: "level_0" :: df1.cols))
    (hm : metric ∈ df1.cols) :
    ∃ df2, index_rename_and_calculate_growth_rate df1 rd host metric = Except.ok df2 ∧
      getColVals df2 "Relative Year" = getColVals df1 "Relative Year" := by
  unfold index_rename_and_calculate_growth_rate at h1
  obtain ⟨dfr, hra, hrb⟩ := exbindE_inv h1
  obtain ⟨yearVals, hya, hyb⟩ := exbindE_inv hrb
  obtain ⟨v0, hv0a, hv0b⟩ := exbindE_inv hyb
  obtain ⟨vl, hvla, hvlb⟩ := exbindE_inv hv0b
  obtain ⟨df5r, h5a, h5b⟩ := exbindE_inv hvlb
  obtain ⟨yv, hyva, hyvb⟩ := exbindE_inv h5b
  set df3E := if rd.isEmpty then stripCols dfr else renameCols (stripCols dfr) rd with hdf3E
  set df4E := if optGtB v0 vl then sortByYear df3E else df3E with hdf4E
  have halr : Aligned dfr := reset_index_ok_aligned hra hAl
  have hal3 : Aligned df3E := by
    rw [hdf3E]
    exact aligned_stripRename rd halr
  have hal4 : Aligned df4E := by
    rw [hdf4E]
    by_cases hb : optGtB v0 vl = true
    · rw [if_pos hb]
      exact aligned_sortByYear hal3
    · rw [if_neg hb]
      exact hal3
  have hcols4 : df4E.cols = df3E.cols := by
    rw [hdf4E]
    by_cases hb : optGtB v0 vl = true
    · rw [if_pos hb]
      exact rfl
    · rw [if_neg hb]
  have hrows4 : df4E.rows.length = df3E.rows.length := by
    rw [hdf4E]
    by_cases hb : optGtB v0 vl = true
    · rw [if_pos hb]
      exact sortByYear_rows_length df3E
    · rw [if_neg hb]
  obtain ⟨hY3mem, hyearVals_eq⟩ := getColVals_ok_inv hya
  obtain ⟨hcnt5, hal5, hmono5, hpres5⟩ := calculate_growth_rate_ok_props h5a hal4
  obtain ⟨hY5mem, hyv_eq⟩ := getColVals_ok_inv hyva
  have hY4mem : "Year" ∈ df4E.cols := by rw [hcols4]; exact hY3mem
  have hYear4 : getColVals df4E "Year" = Except.ok yv :=
    (hpres5 "Year" hY4mem (by decide)).symm.trans hyva
  have hyv_eq4 : yv = df4E.rows.map (fun r => cellVal df4E.cols r.2 "Year") :=
    (getColVals_ok_inv hYear4).2
  have hyvlen : yv.length = df3E.rows.length := by
    rw [hyv_eq4, List.length_map, hrows4]
  have hyearlen : yearVals.length = df3E.rows.length := by
    rw [hyearVals_eq, List.length_map]
  have h0head : yearVals.head? = some v0 := headE_ok_inv hv0a
  have hlast0 : yearVals.getLast? = some vl := lastE_ok_inv hvla
  have hpos3 : 0 < df3E.rows.length := by
    rw [← hyearlen]
    rcases yearVals with _ | ⟨a, t⟩
    · exact absurd h0head (by simp)
    · simp
  have hyvpos : 0 < yv.length := by rw [hyvlen]; exact hpos3
  obtain ⟨v0', hh0⟩ : ∃ x, yv[0]? = some x := ⟨_, List.getElem?_eq_getElem hyvpos⟩
  obtain ⟨vl', hhl⟩ : ∃ x, yv[yv.length - 1]? = some x :=
    ⟨_, List.getElem?_eq_getElem (by omega)⟩
  have hh : yv.head? = some v0' := by rw [List.head?_eq_getElem?]; exact hh0
  have hlst : yv.getLast? = some vl' := by rw [List.getLast?_eq_getElem?]; exact hhl
  have hguard : optGtB v0' vl' = false := by
    by_cases hb : optGtB v0 vl = true
    · have hyv_eq_s : yv = (List.insertionSort (rowLeByYear df3E.cols) df3E.rows).map
          (fun r => cellVal df3E.cols r.2 "Year") := by
        rw [hyv_eq4, hdf4E, if_pos hb]
        exact rfl
      haveI : IsTotal (Nat × List (Option ℚ)) (rowLeByYear df3E.cols) :=
        ⟨fun a b => yearLeB_total _ _⟩
      haveI : IsTrans (Nat × List (Option ℚ)) (rowLeByYear df3E.cols) :=
        ⟨fun a b c h1 h2 => yearLeB_trans h1 h2⟩
      have hs : List.Sorted (rowLeByYear df3E.cols)
          (List.insertionSort (rowLeByYear df3E.cols) df3E.rows) :=
        List.sorted_insertionSort _ _
      have hh' := hh
      have hlst' := hlst
      rw [hyv_eq_s] at hh' hlst'
      exact sorted_year_not_gt hs hh' hlst'
    · have h4eq : df4E = df3E := by rw [hdf4E, if_neg hb]
      have hY3v : getColVals df3E "Year" = Except.ok yv := by
        rw [← h4eq]
        exact hYear4
      have hyv_yr : yv = yearVals := Except.ok.inj (hY3v.symm.trans hya)
      have hv0e : v0' = v0 := by
        have h2 := hh
        rw [hyv_yr, h0head] at h2
        exact (Option.some.inj h2).symm
      have hvle : vl' = vl := by
        have h2 := hlst
        rw [hyv_yr, hlast0] at h2
        exact (Option.some.inj h2).symm
      rw [hv0e, hvle]
      exact Bool.eq_false_iff.mpr hb
  obtain ⟨hcnt1, hal1, hmono1, hRVmem1, hpres1b, hRV1⟩ := setColumn_ok_props hyvb hal5
  have hY1mem : "Year" ∈ df1.cols := hmono1 "Year" hY5mem
  have hYear1 : getColVals df1 "Year" = Except.ok yv :=
    (hpres1b "Year" hY5mem (by decide)).trans hyva
  have hpos1 : 0 < df1.rows.length := by
    rw [hcnt1, hcnt5, hrows4]
    exact hpos3
  have hyvlen1 : yv.length = df1.rows.length := by
    rw [hyvlen, hcnt1, hcnt5, hrows4]
  obtain ⟨nm, dfA, hokA, hnmor, hnmnot, hcolsA, hlabA, hlenA, halpA, hpresA⟩ :=
    reset_index_spec (Or.inr hlev)
  have halA : Aligned dfA := halpA hal1
  have hnm_strip : pyStrip nm = nm := by
    rcases hnmor with h | h <;> subst h <;> decide
  have htrimA : dfA.cols.map (fun c => pyStrip c) = dfA.cols := by
    rw [hcolsA]
    simp only [List.map_cons, hnm_strip]
    rw [htrim]
  have hstripA : stripCols dfA = dfA := stripCols_eq_self htrimA
  have hdf3A : (if rd.isEmpty then stripCols dfA else renameCols (stripCols dfA) rd) = dfA := by
    by_cases hre : rd.isEmpty = true
    · rw [if_pos hre, hstripA]
    · rw [if_neg hre, hstripA]
      apply renameCols_id
      intro p hp hmem
      rw [hcolsA] at hmem
      rcases List.mem_cons.mp hmem with he | hmemtail
      · rcases hnmor with hnmi | hnml
        · exact hrd p hp (by rw [he, hnmi]; exact List.mem_cons_self _ _)
        · exact hrd p hp (by rw [he, hnml]; exact List.mem_cons_of_mem _ (List.mem_cons_self _ _))
      · exact hrd p hp (List.mem_cons_of_mem _ (List.mem_cons_of_mem _ hmemtail))
  have hY_A : "Year" ∈ dfA.cols := by rw [hcolsA]; exact List.mem_cons_of_mem _ hY1mem
  have hYearA : getColVals dfA "Year" = Except.ok yv :=
    (hpresA "Year" hY1mem).trans hYear1
  have hmA : metric ∈ dfA.cols := by rw [hcolsA]; exact List.mem_cons_of_mem _ hm
  have hposA : 1 ≤ dfA.rows.length := by rw [hlenA]; exact hpos1
  have hlabA' : dfA.rows.map Prod.fst = List.range dfA.rows.length := by
    rw [hlenA]
    exact hlabA
  obtain ⟨df5A, hg5A⟩ := calculate_growth_rate_spec hmA hlabA' halA hposA
  obtain ⟨hcnt5A, hal5A, hmono5A, hpres5A⟩ := calculate_growth_rate_ok_props hg5A halA
  have hYear5A : getColVals df5A "Year" = Except.ok yv :=
    (hpres5A "Year" hY_A (by decide)).trans hYearA
  have hlenRY : (yv.map (fun o => o.map (fun y => y - host))).length = df5A.rows.length := by
    rw [List.length_map, hcnt5A, hlenA, ← hyvlen1]
  obtain ⟨df2, hok2, _, _, _, _, _, hRV2⟩ := setColumn_spec hlenRY hal5A
  have hifA : (if optGtB v0' vl' = true then sortByYear dfA else dfA) = dfA :=
    if_neg (by simp [hguard])
  refine ⟨df2, ?_, hRV2.trans hRV1.symm⟩
  unfold index_rename_and_calculate_growth_rate
  rw [hokA]
  simp only [exbindE_ok]
  rw [hdf3A, hYearA]
  simp only [exbindE_ok]
  rw [headE_ok hh]
  simp only [exbindE_ok]
  rw [lastE_ok hlst]
  simp only [exbindE_ok]
  rw [hifA, hg5A]
  simp only [exbindE_ok]
  rw [hYear5A]
  simp only [exbindE_ok]
  exact hok2

theorem c8_relative_year_idempotent_witness :
    ∃ df2, index_rename_and_calculate_growth_rate
        ⟨["index", "Year", "v", "Growth Rate (%)", "Relative Year"],
         [(0, [some 0, some 2000, some 1, some 0, some 0]),
          (1, [some 1, some 2001, some 2, some 100, some 1])]⟩
        [] 2000 "v" = Except.ok df2 ∧
      getColVals df2 "Relative Year"
        = getColVals
            (⟨["index", "Year", "v", "Growth Rate (%)", "Relative Year"],
              [(0, [some 0, some 2000, some 1, some 0, some 0]),
               (1, [some 1, some 2001, some 2, some 100, some 1])]⟩ : DataFrame)
            "Relative Year" :=
  c8_relative_year_idempotent
    ⟨["Year", "v"], [(0, [some 2000, some 1]), (1, [some 2001, some 2])]⟩
    ⟨["index", "Year", "v", "Growth Rate (%)", "Relative Year"],
     [(0, [some 0, some 2000, some 1, some 0, some 0]),
      (1, [some 1, some 2001, some 2, some 100, some 1])]⟩
    [] 2000 "v"
    (by decide)
    (by norm_num +decide [index_rename_and_calculate_growth_rate, reset_index, stripCols,
      renameCols, pyStrip, isSpaceChar, getColVals, cellVal, colIdx, optGtB, sortByYear,
      rowLeByYear, yearLeB, calculate_growth_rate, growthRates, growthAux, locCell,
      growthStep, setColumn, headE, lastE, List.insertionSort, List.orderedInsert,
      List.range, List.range.loop, Bind.bind, Except.bind, List.find?_cons_of_pos,
      List.find?_cons_of_neg, Nat.beq, List.enum, List.enumFrom, List.zip, List.zipWith])
    (by decide)
    (by decide)
    (by simp)
    (by decide)

theorem getLast_append_str (m a : String) (ha : a.data ≠ []) :
    (m ++ a).data.getLast? = a.data.getLast? := by
  rw [String.data_append, List.getLast?_append]
  cases hb : a.data.getLast? with
  | none => exact absurd (List.getLast?_eq_none_iff.mp hb) ha
  | some x => rfl

theorem str_append_cancel {m m' a : String} (h : m ++ a = m' ++ a) : m = m' := by
  have hd : m.data ++ a.data = m'.data ++ a.data := by
    rw [← String.data_append, ← String.data_append, h]
  exact String.ext (List.append_cancel_right hd)

theorem aus_ne_rv (m : String) : ¬ m ++ "_" ++ "AUS" = "Relative Year" := by
  intro h
  have := congrArg (fun s => s.data.getLast?) h
  simp only at this
  rw [getLast_append_str _ _ (by decide)] at this
  exact absurd this (by decide)

theorem chi_ne_rv (m : String) : ¬ m ++ "_" ++ "CHI" = "Relative Year" := by
  intro h
  have := congrArg (fun s => s.data.getLast?) h
  simp only at this
  rw [getLast_append_str _ _ (by decide)] at this
  exact absurd this (by decide)

theorem aus_ne_chi (m m' : String) : ¬ m ++ "_" ++ "AUS" = m' ++ "_" ++ "CHI" := by
  intro h
  have := congrArg (fun s => s.data.getLast?) h
  simp only at this
  rw [getLast_append_str _ _ (by decide), getLast_append_str _ _ (by decide)] at this
  exact absurd this (by decide)

theorem aus_inj {m m' : String} (h : m ++ "_" ++ "AUS" = m' ++ "_" ++ "AUS") : m = m' :=
  str_append_cancel (str_append_cancel h)

theorem chi_inj {m m' : String} (h : m ++ "_" ++ "CHI" = m' ++ "_" ++ "CHI") : m = m' :=
  str_append_cancel (str_append_cancel h)

theorem cellVal_append_none {cols ext : List String} {cells : List (Option ℚ)} {c : String}
    (hlen : cells.length = cols.length) (hc : c ∉ cols) :
    cellVal (cols ++ ext) (cells ++ ext.map (fun _ => (none : Option ℚ))) c = none := by
  unfold cellVal
  rw [colIdx_append_right hc]
  cases hix : colIdx ext c with
  | none => rfl
  | some i =>
      have hilt : i < ext.length := colIdx_lt hix
      simp only [Option.map_some', Option.some_bind]
      rw [List.getElem?_append_right (by omega : cells.length ≤ i + cols.length)]
      have hidx : i + cols.length - cells.length = i := by omega
      rw [hidx, List.getElem?_map, List.getElem?_eq_getElem hilt]
      rfl

theorem prepCountry_ok {t : DataFrame} {m co : String}
    (hRV : "Relative Year" ∈ t.cols) (hm : m ∈ t.cols) (hmne : ¬ m = "Relative Year") :
    prepCountry t m co = Except.ok (prepFrame t m co) := by
  unfold prepCountry selectCols
  have hall : (["Relative Year", m].all (fun c => t.cols.contains c)) = true := by
    simp only [List.all_cons, List.all_nil, Bool.and_true, Bool.and_eq_true]
    exact ⟨contains_iff_mem.mpr hRV, contains_iff_mem.mpr hm⟩
  rw [if_pos hall, exbind_ok]
  unfold renameCols prepFrame
  have hfneg : List.find? (fun p => p.1 == "Relative Year") [(m, m ++ "_" ++ co)] = none := by
    rw [List.find?_cons_of_neg, List.find?_nil]
    simp [hmne]
  have hfpos : List.find? (fun p => p.1 == m) [(m, m ++ "_" ++ co)]
      = some (m, m ++ "_" ++ co) := by
    rw [List.find?_cons_of_pos]
    simp
  simp only [List.map_cons, List.map_nil, hfneg, hfpos]
  rfl

theorem prepFrame_aligned (t : DataFrame) (m co : String) : Aligned (prepFrame t m co) := by
  intro r hr
  obtain ⟨tr, _, hf⟩ := List.mem_map.mp hr
  rw [← hf]
  rfl

theorem prepFrame_rows_ne_nil {t : DataFrame} (m co : String) (h : t.rows ≠ []) :
    (prepFrame t m co).rows ≠ [] := by
  unfold prepFrame
  simp only [ne_eq, List.map_eq_nil_iff]
  exact h

theorem prepFrame_filter {t : DataFrame} {m co : String}
    (hne : ¬ m ++ "_" ++ co = "Relative Year") :
    (prepFrame t m co).cols.filter (fun c => c != "Relative Year")
      = [m ++ "_" ++ co] := by
  unfold prepFrame
  simp only [List.filter_cons, List.filter_nil]
  rw [if_neg (by simp), if_pos (by simp [hne])]

theorem covered_of_prepFrame {t : DataFrame} {m co : String} {k : Option ℚ}
    {rr : Nat × List (Option ℚ)} (hrr : rr ∈ (prepFrame t m co).rows)
    (hmatch : keyMatchB k (cellVal (prepFrame t m co).cols rr.2 "Relative Year") = true) :
    keyCovered t k := by
  obtain ⟨tr, htr, hf⟩ := List.mem_map.mp hrr
  refine ⟨tr, htr, ?_⟩
  rw [← hf] at hmatch
  rwa [show (prepFrame t m co).cols = "Relative Year" :: [m ++ "_" ++ co] from rfl,
    cellVal_cons_self] at hmatch

theorem mergeLeft_cols (l r : DataFrame) (key : String) :
    (mergeLeft l r key).cols = l.cols ++ r.cols.filter (fun c => c != key) := rfl

theorem mergeLeft_mem_rows {l r : DataFrame} {key : String} {row2 : Nat × List (Option ℚ)}
    (h : row2 ∈ (mergeLeft l r key).rows) :
    ∃ lr ∈ l.rows,
      ((row2.2 = lr.2 ++ (r.cols.filter (fun c => c != key)).map (fun _ => (none : Option ℚ))
          ∧ ∀ rr ∈ r.rows,
              keyMatchB (cellVal l.cols lr.2 key) (cellVal r.cols rr.2 key) = false)
        ∨ ∃ rr ∈ r.rows,
            keyMatchB (cellVal l.cols lr.2 key) (cellVal r.cols rr.2 key) = true ∧
            row2.2 = lr.2 ++ dropKeyCells r.cols key rr.2) := by
  have hcell : row2.2 ∈ l.rows.flatMap (fun lr =>
      let k := cellVal l.cols lr.2 key
      let ms := r.rows.filter (fun rr => keyMatchB k (cellVal r.cols rr.2 key))
      if ms.isEmpty then
        [lr.2 ++ (r.cols.filter (fun c => c != key)).map (fun _ => (none : Option ℚ))]
      else
        ms.map (fun rr => lr.2 ++ dropKeyCells r.cols key rr.2)) := by
    have h2 := List.mem_map_of_mem Prod.snd h
    unfold mergeLeft at h2
    rwa [List.enum_map_snd] at h2
  obtain ⟨lr, hlr, hin⟩ := List.mem_flatMap.mp hcell
  refine ⟨lr, hlr, ?_⟩
  simp only at hin
  by_cases hms : (r.rows.filter (fun rr =>
      keyMatchB (cellVal l.cols lr.2 key) (cellVal r.cols rr.2 key))).isEmpty = true
  · rw [if_pos hms] at hin
    left
    refine ⟨List.mem_singleton.mp hin, ?_⟩
    intro rr hrr
    have hnil := List.isEmpty_iff.mp hms
    have := List.filter_eq_nil_iff.mp hnil rr hrr
    exact Bool.eq_false_iff.mpr this
  · rw [if_neg hms] at hin
    right
    obtain ⟨rr, hrrf, heq⟩ := List.mem_map.mp hin
    obtain ⟨hrrm, hmatch⟩ := List.mem_filter.mp hrrf
    exact ⟨rr, hrrm, hmatch, heq.symm⟩

theorem mergeLeft_surj {l r : DataFrame} {key : String} {lr : Nat × List (Option ℚ)}
    (h : lr ∈ l.rows) :
    ∃ row2 ∈ (mergeLeft l r key).rows, ∃ extra, row2.2 = lr.2 ++ extra := by
  have hne : (if (r.rows.filter (fun rr =>
        keyMatchB (cellVal l.cols lr.2 key) (cellVal r.cols rr.2 key))).isEmpty then
      [lr.2 ++ (r.cols.filter (fun c => c != key)).map (fun _ => (none : Option ℚ))]
    else
      (r.rows.filter (fun rr =>
        keyMatchB (cellVal l.cols lr.2 key) (cellVal r.cols rr.2 key))).map
          (fun rr => lr.2 ++ dropKeyCells r.cols key rr.2)) ≠ [] := by
    by_cases hms : (r.rows.filter (fun rr =>
        keyMatchB (cellVal l.cols lr.2 key) (cellVal r.cols rr.2 key))).isEmpty = true
    · rw [if_pos hms]
      exact List.cons_ne_nil _ _
    · rw [if_neg hms]
      simp only [ne_eq, List.map_eq_nil_iff]
      intro hc
      exact hms (by rw [hc]; rfl)
  obtain ⟨cells, hcells⟩ := List.exists_mem_of_ne_nil _ hne
  have hflat : cells ∈ l.rows.flatMap (fun lr =>
      let k := cellVal l.cols lr.2 key
      let ms := r.rows.filter (fun rr => keyMatchB k (cellVal r.cols rr.2 key))
      if ms.isEmpty then
        [lr.2 ++ (r.cols.filter (fun c => c != key)).map (fun _ => (none : Option ℚ))]
      else
        ms.map (fun rr => lr.2 ++ dropKeyCells r.cols key rr.2)) :=
    List.mem_flatMap.mpr ⟨lr, h, hcells⟩
  have hmem2 : cells ∈ ((mergeLeft l r key).rows).map Prod.snd := by
    unfold mergeLeft
    simp only [List.enum_map_snd]
    exact hflat
  obtain ⟨row2, hrow2, hf⟩ := List.mem_map.mp hmem2
  have hextra : ∃ extra, cells = lr.2 ++ extra := by
    by_cases hms : (r.rows.filter (fun rr =>
        keyMatchB (cellVal l.cols lr.2 key) (cellVal r.cols rr.2 key))).isEmpty = true
    · rw [if_pos hms] at hcells
      exact ⟨_, List.mem_singleton.mp hcells⟩
    · rw [if_neg hms] at hcells
      obtain ⟨rr, _, heq⟩ := List.mem_map.mp hcells
      exact ⟨_, heq.symm⟩
  obtain ⟨extra, hex⟩ := hextra
  exact ⟨row2, hrow2, extra, by rw [hf, hex]⟩

theorem mergeLeft_rows_ne_nil {l r : DataFrame} {key : String} (h : l.rows ≠ []) :
    (mergeLeft l r key).rows ≠ [] := by
  obtain ⟨lr, hlr⟩ := List.exists_mem_of_ne_nil _ h
  obtain ⟨row2, hrow2, _⟩ := @mergeLeft_surj l r key lr hlr
  exact List.ne_nil_of_mem hrow2

theorem dropKeyCells_length {rcols : List String} {key : String} {cells : List (Option ℚ)}
    (hlen : cells.length = rcols.length) :
    (dropKeyCells rcols key cells).length = (rcols.filter (fun c => c != key)).length := by
  unfold dropKeyCells
  rw [List.length_map]
  induction rcols generalizing cells with
  | nil => simp
  | cons d ds ih =>
      cases cells with
      | nil => simp at hlen
      | cons w ws =>
          have hlen' : ws.length = ds.length := by simpa using hlen
          simp only [List.zip_cons_cons, List.filter_cons]
          by_cases hd : (d != key) = true
          · rw [if_pos hd, if_pos hd]
            simp only [List.length_cons]
            rw [ih hlen']
          · rw [if_neg hd, if_neg hd]
            exact ih hlen'

theorem mergeLeft_aligned {l r : DataFrame} {key : String}
    (hall : Aligned l) (halr : Aligned r) : Aligned (mergeLeft l r key) := by
  intro row2 hrow2
  obtain ⟨lr, hlr, hcase⟩ := mergeLeft_mem_rows hrow2
  rw [mergeLeft_cols, List.length_append]
  rcases hcase with ⟨heq, _⟩ | ⟨rr, hrrm, _, heq⟩
  · rw [heq, List.length_append, List.length_map, hall lr hlr]
  · rw [heq, List.length_append, hall lr hlr,
      dropKeyCells_length (by rw [halr rr hrrm])]

theorem mergeLeft_cell_left {l r : DataFrame} {key : String} {row2 : Nat × List (Option ℚ)}
    (hall : Aligned l) (hrow2 : row2 ∈ (mergeLeft l r key).rows) :
    ∃ lr ∈ l.rows, ∀ c ∈ l.cols,
      cellVal (mergeLeft l r key).cols row2.2 c = cellVal l.cols lr.2 c := by
  obtain ⟨lr, hlr, hcase⟩ := mergeLeft_mem_rows hrow2
  refine ⟨lr, hlr, fun c hc => ?_⟩
  rcases hcase with ⟨heq, _⟩ | ⟨rr, _, _, heq⟩ <;>
  · rw [mergeLeft_cols, heq]
    exact cellVal_append_left hc (hall lr hlr)

theorem mergeLeft_key_mem_iff {l r : DataFrame} {key : String}
    (hall : Aligned l) (hk : key ∈ l.cols) (q : Option ℚ) :
    (∃ row2 ∈ (mergeLeft l r key).rows, cellVal (mergeLeft l r key).cols row2.2 key = q)
    ↔ (∃ lr ∈ l.rows, cellVal l.cols lr.2 key = q) := by
  constructor
  · rintro ⟨row2, hmem, hval⟩
    obtain ⟨lr, hlr, hpre⟩ := mergeLeft_cell_left hall hmem
    exact ⟨lr, hlr, by rw [← hpre key hk]; exact hval⟩
  · rintro ⟨lr, hlr, hval⟩
    obtain ⟨row2, hm2, extra, heq⟩ := mergeLeft_surj hlr
    refine ⟨row2, hm2, ?_⟩
    rw [mergeLeft_cols, heq, cellVal_append_left hk (hall lr hlr)]
    exact hval

theorem mergeLeft_preserves_missCol {l r t : DataFrame} {col : String}
    (hall : Aligned l) (hrv : "Relative Year" ∈ l.cols)
    (h : MissCol l t col) : MissCol (mergeLeft l r "Relative Year") t col := by
  obtain ⟨hcolmem, hprop⟩ := h
  refine ⟨by rw [mergeLeft_cols]; exact List.mem_append.mpr (Or.inl hcolmem), ?_⟩
  intro row2 hrow2 hnc
  obtain ⟨lr, hlr, hpre⟩ := mergeLeft_cell_left hall hrow2
  rw [hpre col hcolmem]
  apply hprop lr hlr
  rwa [← hpre "Relative Year" hrv]

theorem mergeLeft_new_missCol {l t : DataFrame} {m co : String}
    (hall : Aligned l) (hrv : "Relative Year" ∈ l.cols)
    (hfresh : (m ++ "_" ++ co) ∉ l.cols)
    (hne : ¬ m ++ "_" ++ co = "Relative Year") :
    MissCol (mergeLeft l (prepFrame t m co) "Relative Year") t (m ++ "_" ++ co) := by
  refine ⟨?_, ?_⟩
  · rw [mergeLeft_cols, prepFrame_filter hne]
    exact List.mem_append.mpr (Or.inr (List.mem_singleton.mpr rfl))
  · intro row2 hrow2 hnc
    obtain ⟨lr, hlr, hcase⟩ := mergeLeft_mem_rows hrow2
    have hkey : cellVal (mergeLeft l (prepFrame t m co) "Relative Year").cols row2.2
        "Relative Year" = cellVal l.cols lr.2 "Relative Year" := by
      rcases hcase with ⟨heq, _⟩ | ⟨rr, _, _, heq⟩ <;>
      · rw [mergeLeft_cols, heq]
        exact cellVal_append_left hrv (hall lr hlr)
    rcases hcase with ⟨heq, _⟩ | ⟨rr, hrrm, hmatch, _⟩
    · rw [mergeLeft_cols, heq]
      exact cellVal_append_none (hall lr hlr) hfresh
    · exfalso
      apply hnc
      rw [hkey]
      exact covered_of_prepFrame hrrm hmatch

theorem mergeStep_ok {acc : DataFrame} {e : String × DataFrame × DataFrame}
    (hok : EntryOK e) (hne : acc.rows ≠ []) (hrvc : "Relative Year" ∈ acc.cols) :
    mergeStep acc e = Except.ok
      (mergeLeft (mergeLeft acc (prepFrame e.2.1 e.1 "AUS") "Relative Year")
        (prepFrame e.2.2 e.1 "CHI") "Relative Year") := by
  obtain ⟨hRVa, hma, hRVc, hmc, hmne, _, _⟩ := hok
  have hemp : acc.isEmptyDF = false := by
    unfold DataFrame.isEmptyDF
    rw [Bool.or_eq_false_iff]
    constructor
    · exact Bool.eq_false_iff.mpr (fun h => hne (List.isEmpty_iff.mp h))
    · exact Bool.eq_false_iff.mpr
        (fun h => (List.ne_nil_of_mem hrvc) (List.isEmpty_iff.mp h))
  unfold mergeStep
  rw [prepCountry_ok hRVa hma hmne, exbind_ok, prepCountry_ok hRVc hmc hmne, exbind_ok,
    if_neg (by simp [hemp])]

theorem mergeLoop_invariant {anchor : DataFrame}
    (es : List (String × DataFrame × DataFrame)) (acc : DataFrame)
    (hal : Aligned acc)
    (hrvc : "Relative Year" ∈ acc.cols)
    (hne : acc.rows ≠ [])
    (hfresh : ∀ e ∈ es, (e.1 ++ "_" ++ "AUS") ∉ acc.cols ∧ (e.1 ++ "_" ++ "CHI") ∉ acc.cols)
    (hnd : (es.map Prod.fst).Nodup)
    (hok : ∀ e ∈ es, EntryOK e)
    (hrv : ∀ q, rvMem acc q ↔ rvMem anchor q) :
    ∃ M, mergeLoop acc es = Except.ok M ∧ Aligned M ∧
      M.cols = acc.cols ++ genCols es ∧
      M.rows ≠ [] ∧
      (∀ q, rvMem M q ↔ rvMem anchor q) ∧
      (∀ t col, MissCol acc t col → MissCol M t col) ∧
      (∀ e ∈ es, MissCol M e.2.1 (e.1 ++ "_" ++ "AUS")
        ∧ MissCol M e.2.2 (e.1 ++ "_" ++ "CHI")) := by
  induction es generalizing acc with
  | nil =>
      exact ⟨acc, rfl, hal, by simp [genCols], hne, hrv, fun t col h => h,
        fun e he => absurd he (List.not_mem_nil e)⟩
  | cons e es' ih =>
      have hoke : EntryOK e := hok e (List.mem_cons_self e es')
      obtain ⟨hRVa, hma, hRVc, hmc, hmne, hala, halc⟩ := hok e (List.mem_cons_self e es')
      have hstep := mergeStep_ok hoke hne hrvc
      set mid := mergeLeft acc (prepFrame e.2.1 e.1 "AUS") "Relative Year" with hmid
      set acc2 := mergeLeft mid (prepFrame e.2.2 e.1 "CHI") "Relative Year" with hacc2
      have halmid : Aligned mid := by
        rw [hmid]
        exact mergeLeft_aligned hal (prepFrame_aligned _ _ _)
      have hal2 : Aligned acc2 := by
        rw [hacc2]
        exact mergeLeft_aligned halmid (prepFrame_aligned _ _ _)
      have hcolsmid : mid.cols = acc.cols ++ [e.1 ++ "_" ++ "AUS"] := by
        rw [hmid, mergeLeft_cols, prepFrame_filter (aus_ne_rv e.1)]
      have hcols2 : acc2.cols = (acc.cols ++ [e.1 ++ "_" ++ "AUS"]) ++ [e.1 ++ "_" ++ "CHI"] := by
        rw [hacc2, mergeLeft_cols, prepFrame_filter (chi_ne_rv e.1), hcolsmid]
      have hrvmid : "Relative Year" ∈ mid.cols := by
        rw [hcolsmid]
        exact List.mem_append.mpr (Or.inl hrvc)
      have hrv2c : "Relative Year" ∈ acc2.cols := by
        rw [hcols2]
        exact List.mem_append.mpr (Or.inl (List.mem_append.mpr (Or.inl hrvc)))
      have hnemid : mid.rows ≠ [] := by
        rw [hmid]
        exact mergeLeft_rows_ne_nil hne
      have hne2 : acc2.rows ≠ [] := by
        rw [hacc2]
        exact mergeLeft_rows_ne_nil hnemid
      have hrvq : ∀ q, rvMem acc2 q ↔ rvMem anchor q := by
        intro q
        have h1 : rvMem acc2 q ↔ rvMem mid q := by
          rw [hacc2]
          exact mergeLeft_key_mem_iff halmid hrvmid q
        have h2 : rvMem mid q ↔ rvMem acc q := by
          rw [hmid]
          exact mergeLeft_key_mem_iff hal hrvc q
        rw [h1, h2]
        exact hrv q
      have hfm : e.1 ∉ es'.map Prod.fst := (List.nodup_cons.mp hnd).1
      have hfresh2 : ∀ e' ∈ es',
          (e'.1 ++ "_" ++ "AUS") ∉ acc2.cols ∧ (e'.1 ++ "_" ++ "CHI") ∉ acc2.cols := by
        intro e' he'
        have hne1 : ¬ e'.1 = e.1 := by
          intro hq
          exact hfm (hq ▸ List.mem_map_of_mem Prod.fst he')
        obtain ⟨hfa, hfc⟩ := hfresh e' (List.mem_cons_of_mem _ he')
        rw [hcols2]
        constructor
        · intro hmem
          rcases List.mem_append.mp hmem with hmem1 | hmem1
          · rcases List.mem_append.mp hmem1 with hmem2 | hmem2
            · exact hfa hmem2
            · exact hne1 (aus_inj (List.mem_singleton.mp hmem2))
          · exact aus_ne_chi e'.1 e.1 (List.mem_singleton.mp hmem1)
        · intro hmem
          rcases List.mem_append.mp hmem with hmem1 | hmem1
          · rcases List.mem_append.mp hmem1 with hmem2 | hmem2
            · exact hfc hmem2
            · exact aus_ne_chi e.1 e'.1 (List.mem_singleton.mp hmem2).symm
          · exact hne1 (chi_inj (List.mem_singleton.mp hmem1))
      obtain ⟨M, hM, halM, hcolsM, hneM, hrvM, hpresM, hentM⟩ :=
        ih acc2 hal2 hrv2c hne2 hfresh2 (List.nodup_cons.mp hnd).2
          (fun e' he' => hok e' (List.mem_cons_of_mem _ he')) hrvq
      have hloop : mergeLoop acc (e :: es') = Except.ok M := by
        show (mergeStep acc e) >>= (fun a => mergeLoop a es') = Except.ok M
        rw [hstep, exbind_ok]
        exact hM
      have hpres2 : ∀ t col, MissCol acc t col → MissCol M t col := by
        intro t col h
        apply hpresM
        rw [hacc2]
        apply mergeLeft_preserves_missCol halmid hrvmid
        rw [hmid]
        exact mergeLeft_preserves_missCol hal hrvc h
      have hmissA : MissCol M e.2.1 (e.1 ++ "_" ++ "AUS") := by
        apply hpresM
        rw [hacc2]
        apply mergeLeft_preserves_missCol halmid hrvmid
        rw [hmid]
        exact mergeLeft_new_missCol hal hrvc (hfresh e (List.mem_cons_self e es')).1
          (aus_ne_rv e.1)
      have hmissC : MissCol M e.2.2 (e.1 ++ "_" ++ "CHI") := by
        apply hpresM
        rw [hacc2]
        apply mergeLeft_new_missCol halmid hrvmid ?_ (chi_ne_rv e.1)
        rw [hcolsmid]
        intro hmem
        rcases List.mem_append.mp hmem with hmem1 | hmem1
        · exact (hfresh e (List.mem_cons_self e es')).2 hmem1
        · exact aus_ne_chi e.1 e.1 (List.mem_singleton.mp hmem1).symm
      refine ⟨M, hloop, halM, ?_, hneM, hrvM, hpres2, ?_⟩
      · rw [hcolsM, hcols2]
        simp [genCols, List.flatMap_cons, List.append_assoc]
      · intro e' he'
        rcases List.mem_cons.mp he' with he1 | he1
        · rw [he1]
          exact ⟨hmissA, hmissC⟩
        · exact hentM e' he1

theorem mergeStep_empty_ok {e : String × DataFrame × DataFrame} (hok : EntryOK e) :
    mergeStep ⟨[], []⟩ e = Except.ok
      (mergeLeft (prepFrame e.2.1 e.1 "AUS") (prepFrame e.2.2 e.1 "CHI")
        "Relative Year") := by
  obtain ⟨hRVa, hma, hRVc, hmc, hmne, _, _⟩ := hok
  unfold mergeStep
  rw [prepCountry_ok hRVa hma hmne, exbind_ok, prepCountry_ok hRVc hmc hmne, exbind_ok,
    if_pos (by rfl)]

/-- Claim C3: for every non-empty dictionary of metric-to-(AUS, CHI) tables
(modelled as its entry list) whose entries are well-formed (both tables
aligned, carrying `Relative Year` and the metric column), with distinct metric
names and a non-empty first AUS table, `load_and_merge_data` succeeds without
error; its `Relative Year` value set equals exactly that of the first metric's
AUS/CHI left join (the anchor, the frame the loop's first iteration builds);
a `{metric}_AUS` and a `{metric}_CHI` column is present for every metric of
the input; and at anchor years that a later-merged metric's AUS (resp. CHI)
table does not cover, that metric's column holds a missing value. -/
theorem c3_merge_anchor (e : String × DataFrame × DataFrame)
    (es : List (String × DataFrame × DataFrame))
    (hok : ∀ x ∈ (e :: es), EntryOK x)
    (hnd : ((e :: es).map Prod.fst).Nodup)
    (hrows : e.2.1.rows ≠ []) :
    ∃ M, mergeStep ⟨[], []⟩ e = Except.ok
        (mergeLeft (prepFrame e.2.1 e.1 "AUS") (prepFrame e.2.2 e.1 "CHI")
          "Relative Year") ∧
      load_and_merge_data (e :: es) = Except.ok M ∧
      (∀ q, rvMem M q ↔
        rvMem (mergeLeft (prepFrame e.2.1 e.1 "AUS") (prepFrame e.2.2 e.1 "CHI")
          "Relative Year") q) ∧
      M.cols = "Relative Year" :: genCols (e :: es) ∧
      (∀ x ∈ (e :: es), (x.1 ++ "_" ++ "AUS") ∈ M.cols
        ∧ (x.1 ++ "_" ++ "CHI") ∈ M.cols) ∧
      (∀ x ∈ es, MissCol M x.2.1 (x.1 ++ "_" ++ "AUS")
        ∧ MissCol M x.2.2 (x.1 ++ "_" ++ "CHI")) := by
  obtain ⟨hRVa, hma, hRVc, hmc, hmne, hala, halc⟩ := hok e (List.mem_cons_self e es)
  set anchor := mergeLeft (prepFrame e.2.1 e.1 "AUS") (prepFrame e.2.2 e.1 "CHI")
    "Relative Year" with hanch
  have halan : Aligned anchor := by
    rw [hanch]
    exact mergeLeft_aligned (prepFrame_aligned _ _ _) (prepFrame_aligned _ _ _)
  have hcolsan : anchor.cols
      = ["Relative Year", e.1 ++ "_" ++ "AUS"] ++ [e.1 ++ "_" ++ "CHI"] := by
    rw [hanch, mergeLeft_cols, prepFrame_filter (chi_ne_rv e.1)]
    rfl
  have hrvan : "Relative Year" ∈ anchor.cols := by
    rw [hcolsan]
    exact List.mem_append.mpr (Or.inl (List.mem_cons_self _ _))
  have hnean : anchor.rows ≠ [] := by
    rw [hanch]
    exact mergeLeft_rows_ne_nil (prepFrame_rows_ne_nil _ _ hrows)
  have hfm : e.1 ∉ es.map Prod.fst := (List.nodup_cons.mp hnd).1
  have hfreshan : ∀ x ∈ es,
      (x.1 ++ "_" ++ "AUS") ∉ anchor.cols ∧ (x.1 ++ "_" ++ "CHI") ∉ anchor.cols := by
    intro x hx
    have hne1 : ¬ x.1 = e.1 := fun hq => hfm (hq ▸ List.mem_map_of_mem Prod.fst hx)
    rw [hcolsan]
    constructor
    · intro hmem
      rcases List.mem_append.mp hmem with h1 | h1
      · rcases List.mem_cons.mp h1 with h2 | h2
        · exact aus_ne_rv x.1 h2
        · exact hne1 (aus_inj (List.mem_singleton.mp h2))
      · exact aus_ne_chi x.1 e.1 (List.mem_singleton.mp h1)
    · intro hmem
      rcases List.mem_append.mp hmem with h1 | h1
      · rcases List.mem_cons.mp h1 with h2 | h2
        · exact chi_ne_rv x.1 h2
        · exact aus_ne_chi e.1 x.1 (List.mem_singleton.mp h2).symm
      · exact hne1 (chi_inj (List.mem_singleton.mp h1))
  obtain ⟨M, hM, halM, hcolsM, hneM, hrvM, hpresM, hentM⟩ :=
    mergeLoop_invariant es anchor halan hrvan hnean hfreshan (List.nodup_cons.mp hnd).2
      (fun x hx => hok x (List.mem_cons_of_mem _ hx)) (fun q => Iff.rfl)
  have hstep0 : mergeStep ⟨[], []⟩ e = Except.ok anchor := by
    rw [hanch]
    exact mergeStep_empty_ok (hok e (List.mem_cons_self e es))
  have hload : load_and_merge_data (e :: es) = Except.ok M := by
    unfold load_and_merge_data
    show (mergeStep ⟨[], []⟩ e) >>= (fun a => mergeLoop a es) = Except.ok M
    rw [hstep0, exbind_ok]
    exact hM
  have hcolsM' : M.cols = "Relative Year" :: genCols (e :: es) := by
    rw [hcolsM, hcolsan]
    simp [genCols, List.flatMap_cons]
  refine ⟨M, hstep0, hload, hrvM, hcolsM', ?_, hentM⟩
  intro x hx
  rw [hcolsM']
  constructor
  · refine List.mem_cons_of_mem _ ?_
    simp only [genCols]
    exact List.mem_flatMap.mpr ⟨x, hx, by simp⟩
  · refine List.mem_cons_of_mem _ ?_
    simp only [genCols]
    exact List.mem_flatMap.mpr ⟨x, hx, by simp⟩

theorem c3_merge_anchor_witness :
    ∃ M, mergeStep ⟨[], []⟩
        ("GDP", ⟨["Relative Year", "GDP"], [(0, [some 0, some 10]), (1, [some 1, some 11])]⟩,
          ⟨["Relative Year", "GDP"], [(0, [some 0, some 20])]⟩) = Except.ok
        (mergeLeft
          (prepFrame (⟨["Relative Year", "GDP"],
            [(0, [some 0, some 10]), (1, [some 1, some 11])]⟩ : DataFrame) "GDP" "AUS")
          (prepFrame (⟨["Relative Year", "GDP"],
            [(0, [some 0, some 20])]⟩ : DataFrame) "GDP" "CHI")
          "Relative Year") ∧
      load_and_merge_data
        [("GDP", ⟨["Relative Year", "GDP"], [(0, [some 0, some 10]), (1, [some 1, some 11])]⟩,
           ⟨["Relative Year", "GDP"], [(0, [some 0, some 20])]⟩),
         ("FDI", ⟨["Relative Year", "FDI"], [(0, [some 0, some 30])]⟩,
           ⟨["Relative Year", "FDI"], [(0, [some 1, some 40])]⟩)] = Except.ok M ∧
      (∀ q, rvMem M q ↔
        rvMem (mergeLeft
          (prepFrame (⟨["Relative Year", "GDP"],
            [(0, [some 0, some 10]), (1, [some 1, some 11])]⟩ : DataFrame) "GDP" "AUS")
          (prepFrame (⟨["Relative Year", "GDP"],
            [(0, [some 0, some 20])]⟩ : DataFrame) "GDP" "CHI")
          "Relative Year") q) ∧
      M.cols = "Relative Year" :: genCols
        [("GDP", ⟨["Relative Year", "GDP"], [(0, [some 0, some 10]), (1, [some 1, some 11])]⟩,
           ⟨["Relative Year", "GDP"], [(0, [some 0, some 20])]⟩),
         ("FDI", ⟨["Relative Year", "FDI"], [(0, [some 0, some 30])]⟩,
           ⟨["Relative Year", "FDI"], [(0, [some 1, some 40])]⟩)] ∧
      (∀ x ∈ [("GDP", (⟨["Relative Year", "GDP"],
            [(0, [some 0, some 10]), (1, [some 1, some 11])]⟩ : DataFrame),
            (⟨["Relative Year", "GDP"], [(0, [some 0, some 20])]⟩ : DataFrame)),
          ("FDI", ⟨["Relative Year", "FDI"], [(0, [some 0, some 30])]⟩,
            ⟨["Relative Year", "FDI"], [(0, [some 1, some 40])]⟩)],
        (x.1 ++ "_" ++ "AUS") ∈ M.cols ∧ (x.1 ++ "_" ++ "CHI") ∈ M.cols) ∧
      (∀ x ∈ [("FDI", (⟨["Relative Year", "FDI"],
            [(0, [some 0, some 30])]⟩ : DataFrame),
            (⟨["Relative Year", "FDI"], [(0, [some 1, some 40])]⟩ : DataFrame))],
        MissCol M x.2.1 (x.1 ++ "_" ++ "AUS") ∧ MissCol M x.2.2 (x.1 ++ "_" ++ "CHI")) :=
  c3_merge_anchor
    ("GDP", ⟨["Relative Year", "GDP"], [(0, [some 0, some 10]), (1, [some 1, some 11])]⟩,
      ⟨["Relative Year", "GDP"], [(0, [some 0, some 20])]⟩)
    [("FDI", ⟨["Relative Year", "FDI"], [(0, [some 0, some 30])]⟩,
      ⟨["Relative Year", "FDI"], [(0, [some 1, some 40])]⟩)]
    (by decide)
    (by decide)
    (by decide)
